import Mathlib

/-!
# Wonky Kong actor engine: the world driver (`StudentWorld`)

A shallow embedding of `src/Actor.h`, `src/StudentWorld.h` and
`src/StudentWorld.cpp`.

* An object created with `new` is a record `BaseClass`; the field `addr` is the
  address of the object, so a pointer is a natural number and `nullptr` is
  `none`.
* `std::vector<BaseClass*> actors` is the list of the objects it points to, in
  vector order.  `delete` of an object together with `erase` of its pointer
  removes the record; dereferencing a pointer whose object is not in the list
  (a null or dangling pointer) is undefined behaviour.
* A C++ `int` is an `Int`; where the program computes with it
  (`destroyEnemiesNear`) the arithmetic is that of the built code, 32 bits with
  wrap-around (`wrapInt`).
* The vector `actors` has a capacity; `push_back` at full capacity reallocates
  the buffer, which invalidates the iterator of the loop of `move()`.
* The per-class `doSomething()` bodies live in `Actor.cpp`, which is not part of
  the sources; every statement about `move()` takes the behaviour hooks as a
  parameter `doSomething`.
-/

namespace WonkyKong

/-! ## Host constants (GameConstants.h, GraphObject.h, Level.h) -/

/-- Modelled from the spec: the status codes of the host (§6.1 (f)); the header
`GameConstants.h` that defines them is not part of the sources. -/
inductive GWStatus where
  | GWSTATUS_CONTINUE_GAME
  | GWSTATUS_PLAYER_DIED
  | GWSTATUS_FINISHED_LEVEL
  | GWSTATUS_LEVEL_ERROR
  deriving DecidableEq, Repr

/-- Modelled from the spec: the facing of a `GraphObject` (§3, "facing direction
∈ {left, right}"); the host header with the integer constants is not part of the
sources. -/
inductive Direction where
  | left
  | right
  deriving DecidableEq, Repr

/-- Modelled from the spec: the result of the host level loader
(`Level::LoadResult`); only `load_success` is named in the sources. -/
inductive LoadResult where
  | load_success
  | load_fail_file_not_found
  | load_fail_bad_format
  deriving DecidableEq, Repr

/-- Modelled from the spec: the cell tags of the host level parser (§6.2),
`Level::MazeEntry`.  `empty` stands for every tag that `init()` sends to the
`default:` branch. -/
inductive MazeEntry where
  | empty
  | player
  | left_kong
  | right_kong
  | floor
  | ladder
  | bonfire
  | fireball
  | koopa
  | garlic
  | extra_life
  deriving DecidableEq, Repr

/-- Modelled from the spec: a parsed level, as the host class `Level` presents
it after `loadLevel`: the load result and the tag of every cell. -/
structure Level where
  loadLevel : LoadResult
  getContentsOf : Int → Int → MazeEntry

/-! ## C++ `int` -/

/-- `INT_MIN` of a 32-bit `int`. -/
def INT_MIN : Int := -2147483648

/-- `INT_MAX` of a 32-bit `int`. -/
def INT_MAX : Int := 2147483647

/-- The `int` an arithmetic result comes to in the built code: reduced modulo
`2^32` into `INT_MIN .. INT_MAX` (two's complement wrap-around). -/
def wrapInt (z : Int) : Int := (z - INT_MIN) % 4294967296 + INT_MIN

/-- `a - b` on `int`. -/
def intSub (a b : Int) : Int := wrapInt (a - b)

/-- `abs(a)` on `int`; `abs(INT_MIN)` comes to `INT_MIN`. -/
def intAbs (a : Int) : Int := wrapInt |a|

/-! ## Actor.h -/

/-- The dynamic class of an actor with the private members that the class
declares in `Actor.h`. -/
inductive ActorKind where
  | Player (m_lives : Int) (m_jumping : Bool) (jumpHeight : Int)
      (m_burpCount : Int) (m_frozenTicks : Int)
  | Koopa (movementCooldown : Int)
  | Floor
  | Fireball (m_direction : Direction) (m_lifeSpan : Int)
  | Bonfire
  | ExtraLifeGoodie (m_scoreValue : Int)
  | GarlicGoodie (m_scoreValue : Int)
  | Kong (m_throwCooldown : Int)
  | Barrel (m_direction : Direction)
  | Burp (m_lifeSpan : Int)
  | Ladder
  deriving DecidableEq, Repr

/-- An object of class `BaseClass` (or of a class derived from it): its
address, the position and direction of the `GraphObject` base, the flag
`m_alive`, and the derived part. -/
structure BaseClass where
  addr : Nat
  x : Int
  y : Int
  dir : Direction
  m_alive : Bool
  kind : ActorKind
  deriving DecidableEq, Repr

namespace BaseClass

/-- `bool isAlive() const { return m_alive; }` -/
def isAlive (a : BaseClass) : Bool := a.m_alive

/-- `void setDead() { m_alive = false; }` -/
def setDead (a : BaseClass) : BaseClass := { a with m_alive := false }

/-- `GraphObject::getX()` -/
def getX (a : BaseClass) : Int := a.x

/-- `GraphObject::getY()` -/
def getY (a : BaseClass) : Int := a.y

/-- `virtual bool isWalkable() const { return false; }`, overridden to
`true` by `Floor` and by `Ladder`. -/
def isWalkable (a : BaseClass) : Bool :=
  match a.kind with
  | .Floor => true
  | .Ladder => true
  | _ => false

/-- `virtual bool isEnemy() const { return false; }`, overridden to `true`
by `Koopa` and by `Fireball`. -/
def isEnemy (a : BaseClass) : Bool :=
  match a.kind with
  | .Koopa _ => true
  | .Fireball _ _ => true
  | _ => false

/-- `dynamic_cast<const Floor*>(actor)` is non-null: no class derives from
`Floor`, so this holds exactly for objects of class `Floor`. -/
def isFloor (a : BaseClass) : Bool :=
  match a.kind with
  | .Floor => true
  | _ => false

/-- `dynamic_cast<const Ladder*>(actor)` is non-null. -/
def isLadder (a : BaseClass) : Bool :=
  match a.kind with
  | .Ladder => true
  | _ => false

/-- `int getBurpCount() const { return m_burpCount; }` of `Player`; `none`
when the object is not a `Player`. -/
def getBurpCount (a : BaseClass) : Option Int :=
  match a.kind with
  | .Player _ _ _ b _ => some b
  | _ => none

end BaseClass

/-! ## StudentWorld.h -/

/-- The state of a `StudentWorld`: its two private members `actors` and
`player`, the counters of the `GameWorld` base it derives from (lives, score,
status text), and the next address the allocator hands out.  Of the vector
`actors` the state also keeps `capacity()` and the number of times its buffer
has been reallocated. -/
structure StudentWorld where
  actors : List BaseClass
  player : Option Nat
  lives : Int
  score : Int
  gameStatText : String
  nextAddr : Nat
  capacity : Nat
  reallocations : Nat
  deriving DecidableEq, Repr

namespace StudentWorld

/-- Modelled from the spec: `GameWorld::getLives()` of the host (§6.1 (e)). -/
def getLives (w : StudentWorld) : Int := w.lives

/-- Modelled from the spec: `GameWorld::decLives()` of the host (§6.1 (e)),
"decrement lives". -/
def decLives (w : StudentWorld) : StudentWorld := { w with lives := w.lives - 1 }

/-- Modelled from the spec: `GameWorld::getScore()` of the host. -/
def getScore (w : StudentWorld) : Int := w.score

/-- Modelled from the spec: `GameWorld::setGameStatText` of the host
(§6.1 (d)). -/
def setGameStatText (w : StudentWorld) (s : String) : StudentWorld :=
  { w with gameStatText := s }

/-- The object a pointer points to: the actor of the world with that
address; `none` for a pointer to no live object. -/
def deref (w : StudentWorld) (p : Nat) : Option BaseClass :=
  w.actors.find? (fun a => a.addr == p)

/-- `player->isAlive()`: `none` (undefined behaviour) when `player` is null
or dangling. -/
def playerIsAlive (w : StudentWorld) : Option Bool :=
  match w.player with
  | none => none
  | some p => (w.deref p).map BaseClass.isAlive

/-- `player->getBurpCount()`: `none` (undefined behaviour) when `player` is
null or dangling. -/
def playerBurpCount (w : StudentWorld) : Option Int :=
  match w.player with
  | none => none
  | some p => (w.deref p).bind BaseClass.getBurpCount

/-! ## StudentWorld.cpp: queries -/

/-- The loop of `canMoveTo` over the actors still to be examined. -/
def canMoveToLoop (x y : Int) : List BaseClass → Bool
  | [] => true
  | actor :: rest =>
    if actor.getX = x && actor.getY = y && !actor.isWalkable then false
    else canMoveToLoop x y rest

/-- `bool StudentWorld::canMoveTo(int x, int y) const` -/
def canMoveTo (w : StudentWorld) (x y : Int) : Bool :=
  canMoveToLoop x y w.actors

/-- The loop of `isFloorAt`. -/
def isFloorAtLoop (x y : Int) : List BaseClass → Bool
  | [] => false
  | actor :: rest =>
    if actor.getX = x && actor.getY = y && actor.isFloor then true
    else isFloorAtLoop x y rest

/-- `bool StudentWorld::isFloorAt(int x, int y) const` -/
def isFloorAt (w : StudentWorld) (x y : Int) : Bool :=
  isFloorAtLoop x y w.actors

/-- The loop of `isLadderAt`. -/
def isLadderAtLoop (x y : Int) : List BaseClass → Bool
  | [] => false
  | actor :: rest =>
    if actor.isLadder && actor.getX = x && actor.getY = y then true
    else isLadderAtLoop x y rest

/-- `bool StudentWorld::isLadderAt(int x, int y) const` -/
def isLadderAt (w : StudentWorld) (x y : Int) : Bool :=
  isLadderAtLoop x y w.actors

/-- The loop of `isEnemyAt` (StudentWorld.h). -/
def isEnemyAtLoop (x y : Int) : List BaseClass → Bool
  | [] => false
  | actor :: rest =>
    if actor.isEnemy && actor.getX = x && actor.getY = y then true
    else isEnemyAtLoop x y rest

/-- `bool isEnemyAt(int x, int y) const` -/
def isEnemyAt (w : StudentWorld) (x y : Int) : Bool :=
  isEnemyAtLoop x y w.actors

/-- The loop of `isWallAt`. -/
def isWallAtLoop (x y : Int) : List BaseClass → Bool
  | [] => false
  | actor :: rest =>
    if actor.isFloor && actor.getX = x && actor.getY = y then true
    else isWallAtLoop x y rest

/-- `bool StudentWorld::isWallAt(int x, int y) const` -/
def isWallAt (w : StudentWorld) (x y : Int) : Bool :=
  isWallAtLoop x y w.actors

/-! ## StudentWorld.cpp: mutation of the actor population -/

/-- The loop of `destroyEnemiesNear`: every actor examined is replaced by
what the loop body leaves of it. -/
def destroyEnemiesNearLoop (x y : Int) : List BaseClass → List BaseClass
  | [] => []
  | actor :: rest =>
    (if actor.isEnemy && decide (intAbs (intSub actor.getX x) ≤ 1)
        && decide (intAbs (intSub actor.getY y) ≤ 1)
      then actor.setDead else actor) :: destroyEnemiesNearLoop x y rest

/-- `void StudentWorld::destroyEnemiesNear(int x, int y)` -/
def destroyEnemiesNear (w : StudentWorld) (x y : Int) : StudentWorld :=
  { w with actors := destroyEnemiesNearLoop x y w.actors }

/-- `actors.push_back(a)`: with room left the element is stored in place;
at `size() == capacity()` the buffer is reallocated first, to twice the
capacity (the growth of libstdc++ and libc++; the standard leaves the factor to
the library). -/
def push_back (w : StudentWorld) (a : BaseClass) : StudentWorld :=
  if w.actors.length < w.capacity then { w with actors := w.actors ++ [a] }
  else
    { w with
      actors := w.actors ++ [a]
      capacity := max 1 (2 * w.capacity)
      reallocations := w.reallocations + 1 }

/-- `void StudentWorld::addActor(BaseClass* actor)`: a null pointer is
ignored, any other pointer is pushed to the back of the vector. -/
def addActor (w : StudentWorld) (actor : Option BaseClass) : StudentWorld :=
  match actor with
  | none => w
  | some a => w.push_back a

/-- The loop of `removeDeadActors`: `it` is the index `i`; a dead actor is
deleted and erased with `it` staying in place, a live one is stepped over.
Every iteration erases or advances, so `fuel = actors.size()` iterations
reach `actors.end()`. -/
def removeDeadActorsLoop : Nat → Nat → List BaseClass → List BaseClass
  | 0, _, actors => actors
  | fuel + 1, i, actors =>
    match actors[i]? with
    | none => actors
    | some a =>
      if !a.isAlive then removeDeadActorsLoop fuel i (actors.eraseIdx i)
      else removeDeadActorsLoop fuel (i + 1) actors

/-- `void StudentWorld::removeDeadActors()` -/
def removeDeadActors (w : StudentWorld) : StudentWorld :=
  { w with actors := removeDeadActorsLoop w.actors.length 0 w.actors }

/-- `void StudentWorld::cleanUp()`: every actor is deleted, the vector is
cleared and `player` is set to `nullptr`. -/
def cleanUp (w : StudentWorld) : StudentWorld :=
  { w with actors := [], player := none }

/-- `StudentWorld::~StudentWorld()`, which calls `cleanUp()`. -/
def destructor (w : StudentWorld) : StudentWorld := w.cleanUp

end StudentWorld

/-! ## StudentWorld.cpp: `init()` -/

/-- Modelled from the spec: what the constructors of `Actor.cpp` (not part of
the sources) give to the members that `init()` does not pass: the initial
private members of each class, and the direction a class without a direction
parameter hands to the `BaseClass` constructor. -/
structure InitialMembers where
  m_lives : Int
  m_jumping : Bool
  jumpHeight : Int
  m_burpCount : Int
  m_frozenTicks : Int
  movementCooldown : Int
  fireballLifeSpan : Int
  extraLifeScore : Int
  garlicScore : Int
  m_throwCooldown : Int
  facing : ActorKind → Direction

/-- Modelled from the spec: the `BaseClass` constructor of `Actor.cpp` (not
part of the sources): the object stands at `(startX, startY)`, faces `dir` and
is alive (§3, §4.2). -/
def newBaseClass (addr : Nat) (startX startY : Int) (dir : Direction)
    (kind : ActorKind) : BaseClass :=
  { addr := addr, x := startX, y := startY, dir := dir, m_alive := true, kind := kind }

/-- `new Player(x, y, this)` -/
def newPlayer (ini : InitialMembers) (addr : Nat) (startX startY : Int) : BaseClass :=
  let k := ActorKind.Player ini.m_lives ini.m_jumping ini.jumpHeight ini.m_burpCount
    ini.m_frozenTicks
  newBaseClass addr startX startY (ini.facing k) k

/-- `new Floor(x, y, this)` -/
def newFloor (ini : InitialMembers) (addr : Nat) (startX startY : Int) : BaseClass :=
  newBaseClass addr startX startY (ini.facing ActorKind.Floor) ActorKind.Floor

/-- `new Fireball(x, y, this, dir)` -/
def newFireball (ini : InitialMembers) (addr : Nat) (startX startY : Int)
    (dir : Direction) : BaseClass :=
  newBaseClass addr startX startY dir (ActorKind.Fireball dir ini.fireballLifeSpan)

/-- `new Koopa(x, y, this)` -/
def newKoopa (ini : InitialMembers) (addr : Nat) (startX startY : Int) : BaseClass :=
  let k := ActorKind.Koopa ini.movementCooldown
  newBaseClass addr startX startY (ini.facing k) k

/-- `new Bonfire(x, y, this)` -/
def newBonfire (ini : InitialMembers) (addr : Nat) (startX startY : Int) : BaseClass :=
  newBaseClass addr startX startY (ini.facing ActorKind.Bonfire) ActorKind.Bonfire

/-- `new ExtraLifeGoodie(x, y, this)` -/
def newExtraLifeGoodie (ini : InitialMembers) (addr : Nat) (startX startY : Int) :
    BaseClass :=
  let k := ActorKind.ExtraLifeGoodie ini.extraLifeScore
  newBaseClass addr startX startY (ini.facing k) k

/-- `new GarlicGoodie(x, y, this)` -/
def newGarlicGoodie (ini : InitialMembers) (addr : Nat) (startX startY : Int) :
    BaseClass :=
  let k := ActorKind.GarlicGoodie ini.garlicScore
  newBaseClass addr startX startY (ini.facing k) k

/-- `new Ladder(x, y, this)` -/
def newLadder (ini : InitialMembers) (addr : Nat) (startX startY : Int) : BaseClass :=
  newBaseClass addr startX startY (ini.facing ActorKind.Ladder) ActorKind.Ladder

/-- `new Kong(x, y, this)` -/
def newKong (ini : InitialMembers) (addr : Nat) (startX startY : Int) : BaseClass :=
  let k := ActorKind.Kong ini.m_throwCooldown
  newBaseClass addr startX startY (ini.facing k) k

namespace StudentWorld

/-- The `new` expression of one `case` of `init()`: the object gets the next
free address. -/
def allocate (w : StudentWorld) (mk : Nat → BaseClass) : BaseClass × StudentWorld :=
  (mk w.nextAddr, { w with nextAddr := w.nextAddr + 1 })

/-- The body of the inner loop of `init()` for the cell `(x, y)`: the `switch`
over the tag of the cell, then `if (actor) addActor(actor)`. -/
def initCell (ini : InitialMembers) (lev : Level) (x y : Int) (w : StudentWorld) :
    StudentWorld :=
  match lev.getContentsOf x y with
  | .player =>
    let (a, w1) := w.allocate (fun p => newPlayer ini p x y)
    addActor { w1 with player := some a.addr } (some a)
  | .floor =>
    let (a, w1) := w.allocate (fun p => newFloor ini p x y)
    addActor w1 (some a)
  | .fireball =>
    let (a, w1) := w.allocate (fun p => newFireball ini p x y Direction.right)
    addActor w1 (some a)
  | .koopa =>
    let (a, w1) := w.allocate (fun p => newKoopa ini p x y)
    addActor w1 (some a)
  | .bonfire =>
    let (a, w1) := w.allocate (fun p => newBonfire ini p x y)
    addActor w1 (some a)
  | .extra_life =>
    let (a, w1) := w.allocate (fun p => newExtraLifeGoodie ini p x y)
    addActor w1 (some a)
  | .garlic =>
    let (a, w1) := w.allocate (fun p => newGarlicGoodie ini p x y)
    addActor w1 (some a)
  | .ladder =>
    let (a, w1) := w.allocate (fun p => newLadder ini p x y)
    addActor w1 (some a)
  | .left_kong =>
    let (a, w1) := w.allocate (fun p => newKong ini p x y)
    addActor w1 (some a)
  | .right_kong =>
    let (a, w1) := w.allocate (fun p => newKong ini p x y)
    addActor w1 (some a)
  | .empty => w

/-- The inner loop of `init()`: `for (int y = 0; y < VIEW_HEIGHT; y++)`. -/
def initColumn (ini : InitialMembers) (VIEW_HEIGHT : Nat) (lev : Level) (x : Int)
    (w : StudentWorld) : StudentWorld :=
  (List.range VIEW_HEIGHT).foldl (fun acc (y : Nat) => initCell ini lev x (y : Int) acc) w

/-- The outer loop of `init()`: `for (int x = 0; x < VIEW_WIDTH; x++)`. -/
def initGrid (ini : InitialMembers) (VIEW_WIDTH VIEW_HEIGHT : Nat) (lev : Level)
    (w : StudentWorld) : StudentWorld :=
  (List.range VIEW_WIDTH).foldl
    (fun acc (x : Nat) => initColumn ini VIEW_HEIGHT lev (x : Int) acc) w

/-- `int StudentWorld::init()`.  The level `lev` is what the host loader
produced for `level01.txt`; `VIEW_WIDTH` and `VIEW_HEIGHT` are the host
constants of `GameConstants.h`. -/
def init (ini : InitialMembers) (VIEW_WIDTH VIEW_HEIGHT : Nat) (lev : Level)
    (w : StudentWorld) : GWStatus × StudentWorld :=
  if lev.loadLevel ≠ LoadResult.load_success then
    (GWStatus.GWSTATUS_LEVEL_ERROR, w)
  else
    (GWStatus.GWSTATUS_CONTINUE_GAME, initGrid ini VIEW_WIDTH VIEW_HEIGHT lev w)

/-! ## StudentWorld.cpp: `move()` -/

/-- A behaviour hook invoked by the pass of `move()`: the position of the
iterator and the actor as it was when `doSomething()` was called on it. -/
abbrev Visit := Nat × BaseClass

/-- Where the loop of `move()` stands. -/
inductive PassOutcome where
  /-- Returned `GWSTATUS_PLAYER_DIED` from inside the loop (lives already
  decremented). -/
  | playerDied (w : StudentWorld) (log : List Visit)
  /-- Reached `actors.end()`. -/
  | finished (w : StudentWorld) (log : List Visit)
  /-- Undefined behaviour: a null or dangling `player` was dereferenced, the
  iterator is beyond `actors.end()`, or an invalidated iterator was used. -/
  | undefined
  /-- Still iterating: `it` is at index `i`. -/
  | running (i : Nat) (w : StudentWorld) (log : List Visit)
  deriving DecidableEq, Repr

/-- The loop of `move()`, run for at most `fuel` iterations from the iterator
position `i`.  The iterator is the index `i` into the buffer of the vector, and
`actors.end()` is read anew in every iteration: an actor that a hook pushes to
the back without a reallocation is within the range of the same loop.  When the
buffer has been reallocated during a hook the iterator is invalid, and going on
with it (`++it`) is undefined behaviour; the return on the death of the Player
comes before that.  `log` collects the hooks invoked so far (it is not part of
the program state). -/
def movePass (doSomething : BaseClass → StudentWorld → StudentWorld) :
    Nat → Nat → StudentWorld → List Visit → PassOutcome
  | 0, i, w, log => .running i w log
  | fuel + 1, i, w, log =>
    if i = w.actors.length then .finished w log
    else
      match w.actors[i]? with
      | none => .undefined
      | some a =>
        if a.isAlive then
          let w1 := doSomething a w
          match w1.playerIsAlive with
          | none => .undefined
          | some false => .playerDied w1.decLives (log ++ [(i, a)])
          | some true =>
            if w1.reallocations = w.reallocations then
              movePass doSomething fuel (i + 1) w1 (log ++ [(i, a)])
            else .undefined
        else movePass doSomething fuel (i + 1) w log

/-- The status line of `move()`. -/
def statusText (score lives burps : Int) : String :=
  "Score: " ++ toString score ++ " Lives: " ++ toString lives ++ " Burps: " ++ toString burps

/-- The part of `move()` after the loop: reap, the second check of the
player, the status line.  `none` is undefined behaviour (a null or dangling
`player` is dereferenced). -/
def moveAfterPass (w : StudentWorld) : Option (GWStatus × StudentWorld) :=
  let w1 := w.removeDeadActors
  match w1.player with
  | none =>
    -- `player->getBurpCount()` on a null pointer
    none
  | some p =>
    match w1.deref p with
    | none => none
    | some pl =>
      if !pl.isAlive then
        let w2 := w1.decLives
        if w2.getLives > 0 then some (GWStatus.GWSTATUS_PLAYER_DIED, w2)
        else some (GWStatus.GWSTATUS_FINISHED_LEVEL, w2)
      else
        match w1.playerBurpCount with
        | none => none
        | some burps =>
          some (GWStatus.GWSTATUS_CONTINUE_GAME,
            w1.setGameStatText (statusText w1.getScore w1.getLives burps))

/-- What a call of `move()` comes to. -/
inductive MoveOutcome where
  /-- The call returned this status, leaving this world; `log` lists the
  hooks it invoked. -/
  | returned (status : GWStatus) (w : StudentWorld) (log : List Visit)
  /-- Undefined behaviour. -/
  | undefined
  /-- The loop has not ended within the given number of iterations. -/
  | running
  deriving DecidableEq, Repr

/-- The status a call of `move()` returned, if it returned. -/
def MoveOutcome.status : MoveOutcome → Option GWStatus
  | .returned status _ _ => some status
  | _ => none

/-- The world a call of `move()` left, if it returned. -/
def MoveOutcome.world : MoveOutcome → Option StudentWorld
  | .returned _ w _ => some w
  | _ => none

/-- The hooks a call of `move()` invoked, if it returned. -/
def MoveOutcome.visits : MoveOutcome → Option (List Visit)
  | .returned _ _ log => some log
  | _ => none

/-- `int StudentWorld::move()`, with the loop run for at most `fuel`
iterations. -/
def move (doSomething : BaseClass → StudentWorld → StudentWorld) (fuel : Nat)
    (w : StudentWorld) : MoveOutcome :=
  match movePass doSomething fuel 0 w [] with
  | .playerDied w1 log => .returned GWStatus.GWSTATUS_PLAYER_DIED w1 log
  | .finished w1 log =>
    match moveAfterPass w1 with
    | none => .undefined
    | some (status, w2) => .returned status w2 log
  | .undefined => .undefined
  | .running _ _ _ => .running

end StudentWorld

/-! ## Further constructors, and the world as the host receives it -/

/-- `new Barrel(x, y, this, dir)` (declared in `Actor.h`). -/
def newBarrel (addr : Nat) (startX startY : Int) (dir : Direction) : BaseClass :=
  newBaseClass addr startX startY dir (ActorKind.Barrel dir)

/-- `createStudentWorld(assetPath)`, that is `new StudentWorld(assetPath)`: the
vector is empty and `player` is `nullptr`.  The counters of the `GameWorld`
base and the state of the allocator are what the host provides. -/
def createStudentWorld (lives score : Int) (nextAddr : Nat) : StudentWorld :=
  { actors := [], player := none, lives := lives, score := score, gameStatText := "",
    nextAddr := nextAddr, capacity := 0, reallocations := 0 }

/-- The class of an actor, without its members. -/
inductive Variant where
  | Player
  | Koopa
  | Floor
  | Fireball
  | Bonfire
  | ExtraLifeGoodie
  | GarlicGoodie
  | Kong
  | Barrel
  | Burp
  | Ladder
  deriving DecidableEq, Repr

/-- The dynamic class of an actor. -/
def ActorKind.variant : ActorKind → Variant
  | .Player _ _ _ _ _ => .Player
  | .Koopa _ => .Koopa
  | .Floor => .Floor
  | .Fireball _ _ => .Fireball
  | .Bonfire => .Bonfire
  | .ExtraLifeGoodie _ => .ExtraLifeGoodie
  | .GarlicGoodie _ => .GarlicGoodie
  | .Kong _ => .Kong
  | .Barrel _ => .Barrel
  | .Burp _ => .Burp
  | .Ladder => .Ladder

namespace StudentWorld

/-- `p->setDead()` for a pointer `p` to an actor of the world. -/
def setDeadAt (w : StudentWorld) (p : Nat) : StudentWorld :=
  { w with actors := w.actors.map (fun a => if a.addr = p then a.setDead else a) }

/-- The pointer `actor` at the end of the `switch` of `init()` for a cell
`(x, y)` with the tag `item`, when `new` hands out the address `p`. -/
def initCellActor (ini : InitialMembers) (item : MazeEntry) (p : Nat) (x y : Int) :
    Option BaseClass :=
  match item with
  | .player => some (newPlayer ini p x y)
  | .floor => some (newFloor ini p x y)
  | .fireball => some (newFireball ini p x y Direction.right)
  | .koopa => some (newKoopa ini p x y)
  | .bonfire => some (newBonfire ini p x y)
  | .extra_life => some (newExtraLifeGoodie ini p x y)
  | .garlic => some (newGarlicGoodie ini p x y)
  | .ladder => some (newLadder ini p x y)
  | .left_kong => some (newKong ini p x y)
  | .right_kong => some (newKong ini p x y)
  | .empty => none

/-- The body of the loops of `init()` run over a list of cells. -/
def initCells (ini : InitialMembers) (lev : Level) (cells : List (Int × Int))
    (w : StudentWorld) : StudentWorld :=
  cells.foldl (fun acc c => initCell ini lev c.1 c.2 acc) w

/-- The allocator is consistent with the actor list: every address in use is
below the next one handed out, and no two actors share an address. -/
def WellAllocated (w : StudentWorld) : Prop :=
  (∀ a ∈ w.actors, a.addr < w.nextAddr) ∧ (w.actors.map BaseClass.addr).Nodup

/-- The member `player` follows the Players of the list: it is null only when
the list holds no Player, and otherwise points to a Player of the list. -/
def PlayerTracked (w : StudentWorld) : Prop :=
  match w.player with
  | none => ∀ a ∈ w.actors, a.kind.variant ≠ Variant.Player
  | some p => ∃ a ∈ w.actors, a.addr = p ∧ a.kind.variant = Variant.Player

/-- The hooks invoked so far at an outcome of the loop of `move()`. -/
def PassOutcome.visits : PassOutcome → List Visit
  | .playerDied _ log => log
  | .finished _ log => log
  | .undefined => []
  | .running _ _ log => log

end StudentWorld

/-! ## The level table of the spec (§6.2) -/

/-- Spec §6.2, "Level cell tags → actor spawns": the variant a tag spawns;
nothing for every other tag. -/
def specSpawns : MazeEntry → Option Variant
  | .player => some Variant.Player
  | .floor => some Variant.Floor
  | .ladder => some Variant.Ladder
  | .bonfire => some Variant.Bonfire
  | .fireball => some Variant.Fireball
  | .koopa => some Variant.Koopa
  | .extra_life => some Variant.ExtraLifeGoodie
  | .garlic => some Variant.GarlicGoodie
  | .left_kong => some Variant.Kong
  | .right_kong => some Variant.Kong
  | .empty => none

/-- Spec §6.2: the facing a Kong tag names. -/
def specKongFacing : MazeEntry → Option Direction
  | .left_kong => some Direction.left
  | .right_kong => some Direction.right
  | _ => none

/-- The cells of a grid of `VIEW_WIDTH` columns and `VIEW_HEIGHT` rows in scan
order: `x` ascending, then `y` ascending. -/
def scanCells (VIEW_WIDTH VIEW_HEIGHT : Nat) : List (Int × Int) :=
  (List.range VIEW_WIDTH).flatMap
    (fun (x : Nat) => (List.range VIEW_HEIGHT).map (fun (y : Nat) => ((x : Int), (y : Int))))

/-- Spec §4.12 and §6.2: what `init()` is to append to the actor list: for
every cell in scan order whose tag spawns a variant, the cell and that
variant. -/
def specActors (VIEW_WIDTH VIEW_HEIGHT : Nat) (lev : Level) : List (Int × Int × Variant) :=
  (scanCells VIEW_WIDTH VIEW_HEIGHT).filterMap
    (fun c => (specSpawns (lev.getContentsOf c.1 c.2)).map (fun v => (c.1, c.2, v)))

/-! ## Sample worlds and behaviours -/

namespace Sample

/-- Initial members used by the sample worlds. -/
def ini : InitialMembers :=
  { m_lives := 3, m_jumping := false, jumpHeight := 0, m_burpCount := 0, m_frozenTicks := 0,
    movementCooldown := 10, fireballLifeSpan := 20, extraLifeScore := 50, garlicScore := 25,
    m_throwCooldown := 200, facing := fun _ => Direction.right }

/-- A world: Floor at (5,4), Player at (5,5), Bonfire at (5,5), Koopa at (6,5);
the vector as four calls of `push_back` leave it. -/
def bonfireWorld : StudentWorld :=
  { actors := [newFloor ini 0 5 4, newPlayer ini 1 5 5, newBonfire ini 2 5 5, newKoopa ini 3 6 5],
    player := some 1, lives := 3, score := 0, gameStatText := "", nextAddr := 4,
    capacity := 4, reallocations := 3 }

/-- A world with two Koopas far apart: one at (0,0), one at (`INT_MAX`,0). -/
def farWorld : StudentWorld :=
  { actors := [newKoopa ini 0 0 0, newKoopa ini 1 INT_MAX 0],
    player := none, lives := 3, score := 0, gameStatText := "", nextAddr := 2,
    capacity := 2, reallocations := 2 }

/-- Marks the actor with address `p` dead. -/
def kill (p : Nat) (w : StudentWorld) : StudentWorld :=
  { w with actors := w.actors.map (fun a => if a.addr = p then a.setDead else a) }

/-- Behaviours after §4.4 and §4.5 of the spec: a Bonfire marks the Player dead
when the Player stands in its cell; every other actor does nothing. -/
def bonfireBurns (a : BaseClass) (w : StudentWorld) : StudentWorld :=
  match a.kind, w.player with
  | .Bonfire, some p =>
    match w.deref p with
    | some pl => if pl.x = a.x ∧ pl.y = a.y then kill p w else w
    | none => w
  | _, _ => w

/-- Every hook is a no-op. -/
def idle (_ : BaseClass) (w : StudentWorld) : StudentWorld := w

/-- A level of 3 columns and 2 rows: a Floor and the Player in column 0, a
left Kong and a right Kong in column 1, a Fireball and nothing in column 2. -/
def level : Level :=
  { loadLevel := LoadResult.load_success,
    getContentsOf := fun x y =>
      if x = 0 ∧ y = 0 then MazeEntry.floor
      else if x = 0 ∧ y = 1 then MazeEntry.player
      else if x = 1 ∧ y = 0 then MazeEntry.left_kong
      else if x = 1 ∧ y = 1 then MazeEntry.right_kong
      else if x = 2 ∧ y = 0 then MazeEntry.fireball
      else MazeEntry.empty }

/-- A level of 2 columns and 1 row: the Player and a right Kong. -/
def kongLevel : Level :=
  { loadLevel := LoadResult.load_success,
    getContentsOf := fun x y =>
      if x = 0 ∧ y = 0 then MazeEntry.player
      else if x = 1 ∧ y = 0 then MazeEntry.right_kong
      else MazeEntry.empty }

/-- The world `init()` builds from `kongLevel`: the Player at (0,0), a Kong at
(1,0); the vector holds two actors and has capacity two. -/
def kongWorld : StudentWorld :=
  (StudentWorld.init ini 2 1 kongLevel (createStudentWorld 3 0 0)).2

/-- The world `init()` builds from `level`: Floor, Player, Kong, Kong,
Fireball; the vector holds five actors and has capacity eight. -/
def levelWorld : StudentWorld :=
  (StudentWorld.init ini 3 2 level (createStudentWorld 3 0 0)).2

/-- Behaviours after §4.9 of the spec, with the cooldown run out: a Kong spawns
a Barrel one cell in front of it with `addActor(new Barrel(...))`; every other
actor does nothing. -/
def kongThrows (a : BaseClass) (w : StudentWorld) : StudentWorld :=
  match a.kind with
  | .Kong _ =>
    let (b, w1) := w.allocate (fun p => newBarrel p (a.x + 1) a.y a.dir)
    w1.addActor (some b)
  | _ => w

/-- Behaviours after §4.3 and §4.10 of the spec, reduced to their effect on
the other actors: the hook of the Player destroys the enemies near the cell in
front of it; every other actor does nothing. -/
def playerBurps (a : BaseClass) (w : StudentWorld) : StudentWorld :=
  match a.kind with
  | .Player _ _ _ _ _ => w.destroyEnemiesNear (a.x + 1) a.y
  | _ => w

end Sample

/-! ## Properties of the queries -/

namespace StudentWorld

theorem canMoveToLoop_eq_false (x y : Int) (l : List BaseClass) :
    canMoveToLoop x y l = false ↔
      ∃ a ∈ l, a.getX = x ∧ a.getY = y ∧ a.isWalkable = false := by
  induction l with
  | nil => simp [canMoveToLoop]
  | cons b rest ih =>
    by_cases hb : b.getX = x ∧ b.getY = y ∧ b.isWalkable = false
    · have : canMoveToLoop x y (b :: rest) = false := by
        simp [canMoveToLoop, hb.1, hb.2.1, hb.2.2]
      simp only [this, true_iff]
      exact ⟨b, List.mem_cons_self _ _, hb⟩
    · have hstep : canMoveToLoop x y (b :: rest) = canMoveToLoop x y rest := by
        simp only [canMoveToLoop]
        rw [if_neg]
        simpa [and_assoc] using hb
      rw [hstep, ih]
      constructor
      · rintro ⟨a, ha, h⟩
        exact ⟨a, List.mem_cons_of_mem _ ha, h⟩
      · rintro ⟨a, ha, h⟩
        rcases List.mem_cons.mp ha with rfl | ha
        · exact absurd h hb
        · exact ⟨a, ha, h⟩

/-- C1: `canMoveTo(x, y)` returns false if and only if the actor list holds an
actor that stands at `(x, y)` and whose `isWalkable()` is false. -/
theorem canMoveTo_false_iff (w : StudentWorld) (x y : Int) :
    w.canMoveTo x y = false ↔
      ∃ a ∈ w.actors, a.getX = x ∧ a.getY = y ∧ a.isWalkable = false :=
  canMoveToLoop_eq_false x y w.actors

/-! ## Reaping -/

theorem removeDeadActorsLoop_eq (fuel : Nat) :
    ∀ (i : Nat) (l : List BaseClass), l.length - i ≤ fuel →
      removeDeadActorsLoop fuel i l
        = l.take i ++ (l.drop i).filter (fun a => a.isAlive) := by
  induction fuel with
  | zero =>
    intro i l h
    have hi : l.length ≤ i := by omega
    simp [removeDeadActorsLoop, List.take_of_length_le hi, List.drop_of_length_le hi]
  | succ fuel ih =>
    intro i l h
    unfold removeDeadActorsLoop
    cases hget : l[i]? with
    | none =>
      have hi : l.length ≤ i := List.getElem?_eq_none_iff.mp hget
      simp [List.take_of_length_le hi, List.drop_of_length_le hi]
    | some a =>
      obtain ⟨hi, ha⟩ := List.getElem?_eq_some_iff.mp hget
      have hdrop : l.drop i = a :: l.drop (i + 1) := by
        rw [← ha]; exact List.drop_eq_getElem_cons hi
      by_cases halive : a.isAlive = true
      · simp only [halive, Bool.not_true, Bool.false_eq_true, if_false]
        rw [ih (i + 1) l (by omega), hdrop]
        have htake : l.take (i + 1) = l.take i ++ [a] := by
          rw [List.take_succ, hget]; rfl
        simp [htake, halive]
      · have hdead : a.isAlive = false := by simpa using halive
        simp only [hdead, Bool.not_false, if_true]
        rw [ih i (l.eraseIdx i) (by rw [List.length_eraseIdx]; simp [hi]; omega), hdrop]
        have h1 : (l.eraseIdx i).take i = l.take i := by
          rw [List.eraseIdx_eq_take_drop_succ]
          rw [List.take_append_of_le_length (by simp; omega)]
          simp [List.take_take]
        have h2 : (l.eraseIdx i).drop i = l.drop (i + 1) := by
          rw [List.eraseIdx_eq_take_drop_succ]
          have hlen : (l.take i).length = i := by simp; omega
          exact List.drop_left' hlen
        simp [h1, h2, hdead]

theorem removeDeadActors_actors (w : StudentWorld) :
    w.removeDeadActors.actors = w.actors.filter (fun a => a.isAlive) := by
  have h := removeDeadActorsLoop_eq w.actors.length 0 w.actors (by omega)
  simpa [removeDeadActors] using h

/-- C3: `removeDeadActors()` leaves exactly the actors whose alive flag was
true, in their original relative order: the new list is the old one filtered by
`isAlive`; no actor with `m_alive == false` remains, and every live actor of the
old list is still there. -/
theorem removeDeadActors_eq_filter (w : StudentWorld) :
    w.removeDeadActors.actors = w.actors.filter (fun a => a.isAlive)
      ∧ (∀ a ∈ w.removeDeadActors.actors, a.m_alive = true)
      ∧ (∀ a ∈ w.actors, a.m_alive = true → a ∈ w.removeDeadActors.actors) := by
  rw [removeDeadActors_actors]
  refine ⟨rfl, ?_, ?_⟩
  · intro a ha
    exact (List.mem_filter.mp ha).2
  · intro a ha halive
    exact List.mem_filter.mpr ⟨ha, halive⟩

/-! ## Destroying the enemies near a cell -/

theorem destroyEnemiesNearLoop_length (x y : Int) (l : List BaseClass) :
    (destroyEnemiesNearLoop x y l).length = l.length := by
  induction l with
  | nil => rfl
  | cons b rest ih => simp [destroyEnemiesNearLoop, ih]

theorem destroyEnemiesNearLoop_getElem? (x y : Int) (l : List BaseClass) (i : Nat) :
    (destroyEnemiesNearLoop x y l)[i]? =
      l[i]?.map (fun a =>
        if a.isEnemy && decide (intAbs (intSub a.getX x) ≤ 1)
          && decide (intAbs (intSub a.getY y) ≤ 1)
        then a.setDead else a) := by
  induction l generalizing i with
  | nil => simp [destroyEnemiesNearLoop]
  | cons b rest ih =>
    cases i with
    | zero => simp [destroyEnemiesNearLoop]
    | succ i => simpa [destroyEnemiesNearLoop] using ih i

/-- Within `INT_MIN .. INT_MAX` nothing wraps. -/
theorem wrapInt_eq (z : Int) (h1 : INT_MIN ≤ z) (h2 : z ≤ INT_MAX) : wrapInt z = z := by
  unfold wrapInt
  unfold INT_MIN INT_MAX at *
  rw [Int.emod_eq_of_lt (by omega) (by omega)]
  omega

/-- The distance `abs(a - b)` is computed without overflow when it is at most
`INT_MAX`. -/
theorem intAbs_intSub_eq (a b : Int) (h : |a - b| ≤ INT_MAX) :
    intAbs (intSub a b) = |a - b| := by
  have hle := abs_le.mp h
  have hINT : -INT_MAX = INT_MIN + 1 := by unfold INT_MIN INT_MAX; norm_num
  have hsub : intSub a b = a - b := by
    unfold intSub
    exact wrapInt_eq _ (by rw [hINT] at hle; omega) hle.2
  unfold intAbs
  rw [hsub]
  refine wrapInt_eq _ ?_ h
  have := abs_nonneg (a - b)
  unfold INT_MIN
  omega

/-- C5, as stated, fails at the bounds of `int`: with Koopas at (0,0) and at
(`INT_MAX`,0), both alive, `destroyEnemiesNear(INT_MIN, 0)` marks both dead,
though neither is within distance 1 of that cell: `0 - INT_MIN` wraps to
`INT_MIN`, whose `abs` is `INT_MIN`, and `INT_MAX - INT_MIN` wraps to `-1`. -/
theorem destroyEnemiesNear_wraps_at_INT_MIN :
    Sample.farWorld.actors.map BaseClass.isAlive = [true, true]
      ∧ (Sample.farWorld.destroyEnemiesNear INT_MIN 0).actors.map BaseClass.isAlive
        = [false, false]
      ∧ ¬ (max |(0 : Int) - INT_MIN| |(0 : Int) - 0| ≤ 1)
      ∧ ¬ (max |INT_MAX - INT_MIN| |(0 : Int) - 0| ≤ 1) := by
  decide

/-- C5 (amended): let the distances `|actor.x - x|` and `|actor.y - y|` be at
most `INT_MAX` for every actor, so that the `int` arithmetic of the loop does
not overflow (as for all cells of a playfield).  After `destroyEnemiesNear(x, y)`
the actor list has the same length, and at every index stands the same actor
(same address, class and members, same position and direction) whose alive flag
is false if and only if it was false before the call or the actor has
`isEnemy() == true` and `max(|actor.x - x|, |actor.y - y|) <= 1`. -/
theorem destroyEnemiesNear_spec (w : StudentWorld) (x y : Int)
    (hrange : ∀ a ∈ w.actors, |a.x - x| ≤ INT_MAX ∧ |a.y - y| ≤ INT_MAX) :
    (w.destroyEnemiesNear x y).actors.length = w.actors.length
      ∧ ∀ (i : Nat) (a : BaseClass), w.actors[i]? = some a →
          ∃ b, (w.destroyEnemiesNear x y).actors[i]? = some b
            ∧ b.addr = a.addr ∧ b.x = a.x ∧ b.y = a.y ∧ b.dir = a.dir ∧ b.kind = a.kind
            ∧ (b.m_alive = false ↔
                (a.m_alive = false ∨ (a.isEnemy = true ∧ max |a.x - x| |a.y - y| ≤ 1))) := by
  refine ⟨destroyEnemiesNearLoop_length x y w.actors, ?_⟩
  intro i a ha
  have hb := destroyEnemiesNearLoop_getElem? x y w.actors i
  rw [ha] at hb
  have hmem : a ∈ w.actors := List.getElem?_mem ha
  have hx : intAbs (intSub a.getX x) = |a.x - x| := intAbs_intSub_eq a.x x (hrange a hmem).1
  have hy : intAbs (intSub a.getY y) = |a.y - y| := intAbs_intSub_eq a.y y (hrange a hmem).2
  simp only [Option.map_some'] at hb
  rw [hx, hy] at hb
  refine ⟨_, hb, ?_⟩
  by_cases hc : a.isEnemy = true ∧ |a.x - x| ≤ 1 ∧ |a.y - y| ≤ 1
  · have : (a.isEnemy && decide (|a.x - x| ≤ 1) && decide (|a.y - y| ≤ 1)) = true := by
      simp [hc.1, hc.2.1, hc.2.2]
    simp only [this, if_true, BaseClass.setDead, true_and]
    simp [hc.1, hc.2.1, hc.2.2]
  · have : ¬ ((a.isEnemy && decide (|a.x - x| ≤ 1) && decide (|a.y - y| ≤ 1)) = true) := by
      simpa [and_assoc] using hc
    have hcond : (a.isEnemy && decide (|a.x - x| ≤ 1) && decide (|a.y - y| ≤ 1)) = false := by
      simpa using this
    simp only [hcond, Bool.false_eq_true, if_false, true_and]
    constructor
    · intro h; exact Or.inl h
    · rintro (h | ⟨h1, h2⟩)
      · exact h
      · exact absurd ⟨h1, (max_le_iff.mp h2).1, (max_le_iff.mp h2).2⟩ hc

/-- Witness of C5 (amended): the enemies near the cell (6,5) of the world of
the Bonfire. -/
theorem destroyEnemiesNear_spec_witness :
    (Sample.bonfireWorld.destroyEnemiesNear 6 5).actors.length
        = Sample.bonfireWorld.actors.length
      ∧ ∀ (i : Nat) (a : BaseClass), Sample.bonfireWorld.actors[i]? = some a →
          ∃ b, (Sample.bonfireWorld.destroyEnemiesNear 6 5).actors[i]? = some b
            ∧ b.addr = a.addr ∧ b.x = a.x ∧ b.y = a.y ∧ b.dir = a.dir ∧ b.kind = a.kind
            ∧ (b.m_alive = false ↔
                (a.m_alive = false ∨ (a.isEnemy = true ∧ max |a.x - 6| |a.y - 5| ≤ 1))) :=
  destroyEnemiesNear_spec Sample.bonfireWorld 6 5 (by decide)

/-! ## Floor, ladder, enemy and wall queries -/

theorem isFloor_iff (a : BaseClass) : a.isFloor = true ↔ a.kind = ActorKind.Floor := by
  cases a with
  | mk addr x y dir alive kind => cases kind <;> simp [BaseClass.isFloor]

theorem isLadder_iff (a : BaseClass) : a.isLadder = true ↔ a.kind = ActorKind.Ladder := by
  cases a with
  | mk addr x y dir alive kind => cases kind <;> simp [BaseClass.isLadder]

theorem isFloorAtLoop_iff (x y : Int) (l : List BaseClass) :
    isFloorAtLoop x y l = true ↔
      ∃ a ∈ l, a.kind = ActorKind.Floor ∧ a.getX = x ∧ a.getY = y := by
  induction l with
  | nil => simp [isFloorAtLoop]
  | cons b rest ih =>
    by_cases hb : b.kind = ActorKind.Floor ∧ b.getX = x ∧ b.getY = y
    · have : isFloorAtLoop x y (b :: rest) = true := by
        simp [isFloorAtLoop, hb.2.1, hb.2.2, (isFloor_iff b).mpr hb.1]
      simp only [this, true_iff]
      exact ⟨b, List.mem_cons_self _ _, hb⟩
    · have hstep : isFloorAtLoop x y (b :: rest) = isFloorAtLoop x y rest := by
        simp only [isFloorAtLoop]
        rw [if_neg]
        intro hc
        simp only [Bool.and_eq_true, decide_eq_true_eq] at hc
        exact hb ⟨(isFloor_iff b).mp hc.2, hc.1.1, hc.1.2⟩
      rw [hstep, ih]
      constructor
      · rintro ⟨a, ha, h⟩
        exact ⟨a, List.mem_cons_of_mem _ ha, h⟩
      · rintro ⟨a, ha, h⟩
        rcases List.mem_cons.mp ha with rfl | ha
        · exact absurd h hb
        · exact ⟨a, ha, h⟩

theorem isLadderAtLoop_iff (x y : Int) (l : List BaseClass) :
    isLadderAtLoop x y l = true ↔
      ∃ a ∈ l, a.kind = ActorKind.Ladder ∧ a.getX = x ∧ a.getY = y := by
  induction l with
  | nil => simp [isLadderAtLoop]
  | cons b rest ih =>
    by_cases hb : b.kind = ActorKind.Ladder ∧ b.getX = x ∧ b.getY = y
    · have : isLadderAtLoop x y (b :: rest) = true := by
        simp [isLadderAtLoop, hb.2.1, hb.2.2, (isLadder_iff b).mpr hb.1]
      simp only [this, true_iff]
      exact ⟨b, List.mem_cons_self _ _, hb⟩
    · have hstep : isLadderAtLoop x y (b :: rest) = isLadderAtLoop x y rest := by
        simp only [isLadderAtLoop]
        rw [if_neg]
        intro hc
        simp only [Bool.and_eq_true, decide_eq_true_eq] at hc
        exact hb ⟨(isLadder_iff b).mp hc.1.1, hc.1.2, hc.2⟩
      rw [hstep, ih]
      constructor
      · rintro ⟨a, ha, h⟩
        exact ⟨a, List.mem_cons_of_mem _ ha, h⟩
      · rintro ⟨a, ha, h⟩
        rcases List.mem_cons.mp ha with rfl | ha
        · exact absurd h hb
        · exact ⟨a, ha, h⟩

theorem isEnemyAtLoop_iff (x y : Int) (l : List BaseClass) :
    isEnemyAtLoop x y l = true ↔
      ∃ a ∈ l, a.isEnemy = true ∧ a.getX = x ∧ a.getY = y := by
  induction l with
  | nil => simp [isEnemyAtLoop]
  | cons b rest ih =>
    by_cases hb : b.isEnemy = true ∧ b.getX = x ∧ b.getY = y
    · have : isEnemyAtLoop x y (b :: rest) = true := by
        simp [isEnemyAtLoop, hb.1, hb.2.1, hb.2.2]
      simp only [this, true_iff]
      exact ⟨b, List.mem_cons_self _ _, hb⟩
    · have hstep : isEnemyAtLoop x y (b :: rest) = isEnemyAtLoop x y rest := by
        simp only [isEnemyAtLoop]
        rw [if_neg]
        intro hc
        simp only [Bool.and_eq_true, decide_eq_true_eq] at hc
        exact hb ⟨hc.1.1, hc.1.2, hc.2⟩
      rw [hstep, ih]
      constructor
      · rintro ⟨a, ha, h⟩
        exact ⟨a, List.mem_cons_of_mem _ ha, h⟩
      · rintro ⟨a, ha, h⟩
        rcases List.mem_cons.mp ha with rfl | ha
        · exact absurd h hb
        · exact ⟨a, ha, h⟩

/-- C7: `isFloorAt(x, y)` is true iff some actor of the list is a Floor at
`(x, y)`; `isLadderAt(x, y)` is true iff some actor of the list is a Ladder at
`(x, y)`; `isEnemyAt(x, y)` is true iff some actor of the list with
`isEnemy() == true` is at `(x, y)`. -/
theorem isFloorAt_isLadderAt_isEnemyAt_iff (w : StudentWorld) (x y : Int) :
    (w.isFloorAt x y = true ↔
        ∃ a ∈ w.actors, a.kind = ActorKind.Floor ∧ a.getX = x ∧ a.getY = y)
      ∧ (w.isLadderAt x y = true ↔
        ∃ a ∈ w.actors, a.kind = ActorKind.Ladder ∧ a.getX = x ∧ a.getY = y)
      ∧ (w.isEnemyAt x y = true ↔
        ∃ a ∈ w.actors, a.isEnemy = true ∧ a.getX = x ∧ a.getY = y) :=
  ⟨isFloorAtLoop_iff x y w.actors, isLadderAtLoop_iff x y w.actors,
    isEnemyAtLoop_iff x y w.actors⟩

theorem isWallAtLoop_eq_isFloorAtLoop (x y : Int) (l : List BaseClass) :
    isWallAtLoop x y l = isFloorAtLoop x y l := by
  induction l with
  | nil => rfl
  | cons b rest ih =>
    simp only [isWallAtLoop, isFloorAtLoop, ih]
    have hcond : (b.isFloor && decide (b.getX = x) && decide (b.getY = y))
        = (decide (b.getX = x) && decide (b.getY = y) && b.isFloor) := by
      cases b.isFloor <;> cases decide (b.getX = x) <;> cases decide (b.getY = y) <;> rfl
    rw [hcond]

/-- C8: for every world and every cell `(x, y)`, `isWallAt(x, y)` equals
`isFloorAt(x, y)`; the two loops test the same three conditions in a different
order. -/
theorem isWallAt_eq_isFloorAt (w : StudentWorld) (x y : Int) :
    w.isWallAt x y = w.isFloorAt x y :=
  isWallAtLoop_eq_isFloorAtLoop x y w.actors

/-! ## `cleanUp()` -/

/-- C9: after `cleanUp()` the actor list is empty and the player reference is
null; a second `cleanUp()`, and the destructor that calls it, leave that
state as it is. -/
theorem cleanUp_empty_idempotent (w : StudentWorld) :
    w.cleanUp.actors = [] ∧ w.cleanUp.player = none
      ∧ w.cleanUp.cleanUp = w.cleanUp ∧ w.cleanUp.destructor = w.cleanUp :=
  ⟨rfl, rfl, rfl, rfl⟩

/-! ## `init()`: the level fails to load -/

/-- C10: `init()` returns `GWSTATUS_LEVEL_ERROR` if and only if the level
loader does not report `load_success`, and then the world (actor list and
player reference included) is left as it was; otherwise `init()` returns
`GWSTATUS_CONTINUE_GAME`. -/
theorem init_level_error_iff (ini : InitialMembers) (VIEW_WIDTH VIEW_HEIGHT : Nat)
    (lev : Level) (w : StudentWorld) :
    ((init ini VIEW_WIDTH VIEW_HEIGHT lev w).1 = GWStatus.GWSTATUS_LEVEL_ERROR
        ↔ lev.loadLevel ≠ LoadResult.load_success)
      ∧ ((init ini VIEW_WIDTH VIEW_HEIGHT lev w).1 = GWStatus.GWSTATUS_LEVEL_ERROR →
          (init ini VIEW_WIDTH VIEW_HEIGHT lev w).2 = w)
      ∧ ((init ini VIEW_WIDTH VIEW_HEIGHT lev w).1 ≠ GWStatus.GWSTATUS_LEVEL_ERROR →
          (init ini VIEW_WIDTH VIEW_HEIGHT lev w).1 = GWStatus.GWSTATUS_CONTINUE_GAME) := by
  by_cases h : lev.loadLevel = LoadResult.load_success
  · simp [init, h]
  · simp [init, h]

/-! ## The pass of `move()` -/

/-- One iteration of the loop of `move()` at a live actor whose hook leaves
the Player alive. -/
theorem movePass_step_alive (ds : BaseClass → StudentWorld → StudentWorld) (fuel i : Nat)
    (w : StudentWorld) (log : List Visit) (a : BaseClass)
    (hget : w.actors[i]? = some a) (ha : a.isAlive = true)
    (hp : (ds a w).playerIsAlive = some true)
    (hr : (ds a w).reallocations = w.reallocations) :
    movePass ds (fuel + 1) i w log = movePass ds fuel (i + 1) (ds a w) (log ++ [(i, a)]) := by
  have hi : i ≠ w.actors.length := by
    intro h
    rw [h] at hget
    simp at hget
  rw [movePass]
  simp [hi, hget, ha, hp, hr]

/-- One iteration of the loop of `move()` at a live actor whose hook leaves
the Player alive and has the buffer of the vector reallocated: the iterator is
invalid and the loop goes on with it. -/
theorem movePass_step_invalid (ds : BaseClass → StudentWorld → StudentWorld) (fuel i : Nat)
    (w : StudentWorld) (log : List Visit) (a : BaseClass)
    (hget : w.actors[i]? = some a) (ha : a.isAlive = true)
    (hp : (ds a w).playerIsAlive = some true)
    (hr : (ds a w).reallocations ≠ w.reallocations) :
    movePass ds (fuel + 1) i w log = PassOutcome.undefined := by
  have hi : i ≠ w.actors.length := by
    intro h
    rw [h] at hget
    simp at hget
  rw [movePass]
  simp [hi, hget, ha, hp, hr]

/-- One iteration of the loop of `move()` at a live actor whose hook leaves
the Player dead. -/
theorem movePass_step_died (ds : BaseClass → StudentWorld → StudentWorld) (fuel i : Nat)
    (w : StudentWorld) (log : List Visit) (a : BaseClass)
    (hget : w.actors[i]? = some a) (ha : a.isAlive = true)
    (hp : (ds a w).playerIsAlive = some false) :
    movePass ds (fuel + 1) i w log
      = PassOutcome.playerDied (ds a w).decLives (log ++ [(i, a)]) := by
  have hi : i ≠ w.actors.length := by
    intro h
    rw [h] at hget
    simp at hget
  rw [movePass]
  simp [hi, hget, ha, hp]

/-- One iteration of the loop of `move()` at a dead actor. -/
theorem movePass_step_dead (ds : BaseClass → StudentWorld → StudentWorld) (fuel i : Nat)
    (w : StudentWorld) (log : List Visit) (a : BaseClass)
    (hget : w.actors[i]? = some a) (ha : a.isAlive = false) :
    movePass ds (fuel + 1) i w log = movePass ds fuel (i + 1) w log := by
  have hi : i ≠ w.actors.length := by
    intro h
    rw [h] at hget
    simp at hget
  rw [movePass]
  simp [hi, hget, ha]

/-- Case analysis of one iteration of the loop of `move()`. -/
theorem movePass_succ_cases (ds : BaseClass → StudentWorld → StudentWorld) (fuel i : Nat)
    (w : StudentWorld) (log : List Visit) :
    (i = w.actors.length ∧ movePass ds (fuel + 1) i w log = PassOutcome.finished w log)
    ∨ (w.actors[i]? = none ∧ movePass ds (fuel + 1) i w log = PassOutcome.undefined)
    ∨ (∃ a, w.actors[i]? = some a ∧ a.isAlive = false
        ∧ movePass ds (fuel + 1) i w log = movePass ds fuel (i + 1) w log)
    ∨ (∃ a, w.actors[i]? = some a ∧ a.isAlive = true
        ∧ (ds a w).playerIsAlive = none
        ∧ movePass ds (fuel + 1) i w log = PassOutcome.undefined)
    ∨ (∃ a, w.actors[i]? = some a ∧ a.isAlive = true
        ∧ (ds a w).playerIsAlive = some false
        ∧ movePass ds (fuel + 1) i w log
            = PassOutcome.playerDied (ds a w).decLives (log ++ [(i, a)]))
    ∨ (∃ a, w.actors[i]? = some a ∧ a.isAlive = true
        ∧ (ds a w).playerIsAlive = some true
        ∧ (ds a w).reallocations = w.reallocations
        ∧ movePass ds (fuel + 1) i w log
            = movePass ds fuel (i + 1) (ds a w) (log ++ [(i, a)]))
    ∨ (∃ a, w.actors[i]? = some a ∧ a.isAlive = true
        ∧ (ds a w).playerIsAlive = some true
        ∧ (ds a w).reallocations ≠ w.reallocations
        ∧ movePass ds (fuel + 1) i w log = PassOutcome.undefined) := by
  by_cases hi : i = w.actors.length
  · left
    refine ⟨hi, ?_⟩
    rw [movePass]; simp [hi]
  · right
    cases hget : w.actors[i]? with
    | none =>
      left
      refine ⟨rfl, ?_⟩
      rw [movePass]; simp [hi, hget]
    | some a =>
      right
      cases ha : a.isAlive with
      | false =>
        left
        exact ⟨a, rfl, ha, movePass_step_dead ds fuel i w log a hget ha⟩
      | true =>
        right
        cases hp : (ds a w).playerIsAlive with
        | none =>
          left
          refine ⟨a, rfl, ha, hp, ?_⟩
          rw [movePass]; simp [hi, hget, ha, hp]
        | some b =>
          right
          cases b with
          | false =>
            left
            exact ⟨a, rfl, ha, hp, movePass_step_died ds fuel i w log a hget ha hp⟩
          | true =>
            right
            by_cases hr : (ds a w).reallocations = w.reallocations
            · left
              exact ⟨a, rfl, ha, hp, hr, movePass_step_alive ds fuel i w log a hget ha hp hr⟩
            · right
              exact ⟨a, rfl, ha, hp, hr, movePass_step_invalid ds fuel i w log a hget ha hp hr⟩

/-- More fuel continues a run exactly where less fuel left it. -/
theorem movePass_add (ds : BaseClass → StudentWorld → StudentWorld) (m : Nat) :
    ∀ (n i : Nat) (w : StudentWorld) (log : List Visit) (j : Nat) (wk : StudentWorld)
      (logk : List Visit),
      movePass ds n i w log = PassOutcome.running j wk logk →
      movePass ds (n + m) i w log = movePass ds m j wk logk := by
  intro n
  induction n with
  | zero =>
    intro i w log j wk logk h
    simp only [movePass] at h
    injection h with h1 h2 h3
    subst h1; subst h2; subst h3
    simp
  | succ n ih =>
    intro i w log j wk logk h
    have hnm : n + 1 + m = (n + m) + 1 := by omega
    rw [hnm]
    rcases movePass_succ_cases ds n i w log with
      ⟨_, h1⟩ | ⟨_, h1⟩ | ⟨a, hg, ha, h1⟩ | ⟨a, _, _, _, h1⟩ | ⟨a, _, _, _, h1⟩
        | ⟨a, hg, ha, hp, hr, h1⟩ | ⟨a, _, _, _, _, h1⟩
    · rw [h1] at h; cases h
    · rw [h1] at h; cases h
    · rw [h1] at h
      rw [movePass_step_dead ds (n + m) i w log a hg ha]
      exact ih _ _ _ _ _ _ h
    · rw [h1] at h; cases h
    · rw [h1] at h; cases h
    · rw [h1] at h
      rw [movePass_step_alive ds (n + m) i w log a hg ha hp hr]
      exact ih _ _ _ _ _ _ h
    · rw [h1] at h; cases h

/-- The loop of `move()` changes the lives counter only through `decLives()`
on its early return, when no hook changes it. -/
theorem movePass_lives (ds : BaseClass → StudentWorld → StudentWorld)
    (hlives : ∀ a u, (ds a u).lives = u.lives) :
    ∀ (n i : Nat) (w : StudentWorld) (log : List Visit),
      (∀ j wk logk, movePass ds n i w log = PassOutcome.running j wk logk →
          wk.lives = w.lives)
      ∧ (∀ wk logk, movePass ds n i w log = PassOutcome.finished wk logk →
          wk.lives = w.lives)
      ∧ (∀ wk logk, movePass ds n i w log = PassOutcome.playerDied wk logk →
          wk.lives = w.lives - 1) := by
  intro n
  induction n with
  | zero =>
    intro i w log
    simp only [movePass]
    refine ⟨?_, ?_, ?_⟩
    · intro j wk logk h
      injection h with h1 h2 h3
      rw [← h2]
    · intro wk logk h; cases h
    · intro wk logk h; cases h
  | succ n ih =>
    intro i w log
    rcases movePass_succ_cases ds n i w log with
      ⟨_, h1⟩ | ⟨_, h1⟩ | ⟨a, _, _, h1⟩ | ⟨a, _, _, _, h1⟩ | ⟨a, _, _, _, h1⟩
        | ⟨a, _, _, _, _, h1⟩ | ⟨a, _, _, _, _, h1⟩
    · rw [h1]
      refine ⟨?_, ?_, ?_⟩
      · intro j wk logk h; cases h
      · intro wk logk h
        injection h with h2 h3
        rw [← h2]
      · intro wk logk h; cases h
    · rw [h1]
      exact ⟨fun _ _ _ h => (by cases h), fun _ _ h => (by cases h),
        fun _ _ h => (by cases h)⟩
    · rw [h1]
      exact ih (i + 1) w log
    · rw [h1]
      exact ⟨fun _ _ _ h => (by cases h), fun _ _ h => (by cases h),
        fun _ _ h => (by cases h)⟩
    · rw [h1]
      refine ⟨?_, ?_, ?_⟩
      · intro j wk logk h; cases h
      · intro wk logk h; cases h
      · intro wk logk h
        injection h with h2 h3
        rw [← h2]
        simp [decLives, hlives]
    · rw [h1]
      have h := ih (i + 1) (ds a w) (log ++ [(i, a)])
      rw [hlives a w] at h
      exact h
    · rw [h1]
      exact ⟨fun _ _ _ h => (by cases h), fun _ _ h => (by cases h),
        fun _ _ h => (by cases h)⟩

/-- While the loop of `move()` is running, every hook it has invoked was that
of an actor at an index below the iterator. -/
theorem movePass_log_lt (ds : BaseClass → StudentWorld → StudentWorld) :
    ∀ (n i : Nat) (w : StudentWorld) (log : List Visit),
      (∀ v ∈ log, v.1 < i) →
      ∀ j wk logk, movePass ds n i w log = PassOutcome.running j wk logk →
        ∀ v ∈ logk, v.1 < j := by
  intro n
  induction n with
  | zero =>
    intro i w log hlog j wk logk h
    simp only [movePass] at h
    injection h with h1 h2 h3
    subst h1; subst h3
    exact hlog
  | succ n ih =>
    intro i w log hlog j wk logk h
    rcases movePass_succ_cases ds n i w log with
      ⟨_, h1⟩ | ⟨_, h1⟩ | ⟨a, _, _, h1⟩ | ⟨a, _, _, _, h1⟩ | ⟨a, _, _, _, h1⟩
        | ⟨a, _, _, _, _, h1⟩ | ⟨a, _, _, _, _, h1⟩
    · rw [h1] at h; cases h
    · rw [h1] at h; cases h
    · rw [h1] at h
      refine ih (i + 1) w log ?_ j wk logk h
      intro v hv
      exact Nat.lt_succ_of_lt (hlog v hv)
    · rw [h1] at h; cases h
    · rw [h1] at h; cases h
    · rw [h1] at h
      refine ih (i + 1) (ds a w) (log ++ [(i, a)]) ?_ j wk logk h
      intro v hv
      rcases List.mem_append.mp hv with hv | hv
      · exact Nat.lt_succ_of_lt (hlog v hv)
      · simp only [List.mem_singleton] at hv
        subst hv
        exact Nat.lt_succ_self _
    · rw [h1] at h; cases h

theorem isAlive_of_mem_removeDeadActors (w : StudentWorld) (a : BaseClass)
    (h : a ∈ w.removeDeadActors.actors) : a.isAlive = true := by
  rw [removeDeadActors_actors] at h
  exact (List.mem_filter.mp h).2

/-- A world in which `player->isAlive()` is false holds a dead actor: the
Player. -/
theorem exists_dead_of_playerIsAlive_false (w : StudentWorld)
    (h : w.playerIsAlive = some false) : ∃ a ∈ w.actors, a.m_alive = false := by
  unfold playerIsAlive at h
  cases hp : w.player with
  | none => rw [hp] at h; cases h
  | some p =>
    rw [hp] at h
    simp only [deref] at h
    cases hf : w.actors.find? (fun a => a.addr == p) with
    | none => rw [hf] at h; cases h
    | some a =>
      rw [hf] at h
      simp only [Option.map_some', Option.some.injEq] at h
      exact ⟨a, List.mem_of_find?_eq_some hf, h⟩

/-- The early return of `move()` happens with the Player dead. -/
theorem movePass_playerDied (ds : BaseClass → StudentWorld → StudentWorld) :
    ∀ (n i : Nat) (w : StudentWorld) (log : List Visit) (wk : StudentWorld)
      (logk : List Visit),
      movePass ds n i w log = PassOutcome.playerDied wk logk →
      wk.playerIsAlive = some false := by
  intro n
  induction n with
  | zero =>
    intro i w log wk logk h
    simp only [movePass] at h
    cases h
  | succ n ih =>
    intro i w log wk logk h
    rcases movePass_succ_cases ds n i w log with
      ⟨_, h1⟩ | ⟨_, h1⟩ | ⟨a, _, _, h1⟩ | ⟨a, _, _, _, h1⟩ | ⟨a, _, _, hp, h1⟩
        | ⟨a, _, _, _, _, h1⟩ | ⟨a, _, _, _, _, h1⟩
    · rw [h1] at h; cases h
    · rw [h1] at h; cases h
    · rw [h1] at h; exact ih _ _ _ _ _ h
    · rw [h1] at h; cases h
    · rw [h1] at h
      injection h with h2 h3
      rw [← h2]
      simpa [playerIsAlive, deref, decLives] using hp
    · rw [h1] at h; exact ih _ _ _ _ _ h
    · rw [h1] at h; cases h

/-- After the loop, `move()` can only return `GWSTATUS_CONTINUE_GAME`: it
has reaped the dead actors, and it has changed nothing but the actor list and
the status text. -/
theorem moveAfterPass_some (w : StudentWorld) (st : GWStatus) (w2 : StudentWorld)
    (h : moveAfterPass w = some (st, w2)) :
    st = GWStatus.GWSTATUS_CONTINUE_GAME
      ∧ w2.actors = w.actors.filter (fun a => a.isAlive)
      ∧ w2.lives = w.lives ∧ w2.player = w.player := by
  unfold moveAfterPass at h
  simp only at h
  cases hp : w.removeDeadActors.player with
  | none => rw [hp] at h; cases h
  | some p =>
    rw [hp] at h
    simp only at h
    cases hd : w.removeDeadActors.deref p with
    | none => rw [hd] at h; cases h
    | some pl =>
      rw [hd] at h
      simp only at h
      have hmem : pl ∈ w.removeDeadActors.actors := by
        unfold deref at hd
        exact List.mem_of_find?_eq_some hd
      have hal : pl.isAlive = true := (isAlive_of_mem_removeDeadActors w pl hmem)
      simp only [hal, Bool.not_true, Bool.false_eq_true, if_false] at h
      cases hb : w.removeDeadActors.playerBurpCount with
      | none => rw [hb] at h; cases h
      | some burps =>
        rw [hb] at h
        simp only [Option.some.injEq, Prod.mk.injEq] at h
        obtain ⟨h1, h2⟩ := h
        subst h1; subst h2
        refine ⟨rfl, ?_, rfl, ?_⟩
        · simp [setGameStatText, removeDeadActors_actors]
        · simp [setGameStatText, removeDeadActors]

end StudentWorld

/-! ## `move()`: the early return on the death of the Player -/

namespace Sample

theorem bonfireBurns_lives (a : BaseClass) (w : StudentWorld) :
    (bonfireBurns a w).lives = w.lives := by
  unfold bonfireBurns
  split
  · split
    · split <;> rfl
    · rfl
  · rfl

theorem idle_lives (a : BaseClass) (w : StudentWorld) : (idle a w).lives = w.lives := rfl

end Sample

namespace StudentWorld

/-- C2: if the loop of `move()`, still running after `n` iterations, stands at
index `i` in the world `wk`, the actor `a` at that index is alive, and its hook
leaves the Player with `m_alive == false`, then `move()` returns
`GWSTATUS_PLAYER_DIED` right after that invocation, whatever the hooks are: the
world it leaves is the one that hook left with the lives counter decremented
once; the hook of `a` is the last one invoked and no actor at a later index has
had its hook invoked; the actor list is the one the hook left, nothing is
removed.  The lives counter is one less than the hook left it, and so one less
than before the tick when the hooks leave the counter alone, as the members that
`StudentWorld.h` and `Actor.h` give an actor do (a life is credited with
`increasePlayerLives()`, which goes to `Player::incrementLives()`). -/
theorem move_returns_player_died (ds : BaseClass → StudentWorld → StudentWorld)
    (w : StudentWorld) (n i : Nat) (wk : StudentWorld) (log : List Visit) (a : BaseClass)
    (hrun : movePass ds n 0 w [] = PassOutcome.running i wk log)
    (hget : wk.actors[i]? = some a) (ha : a.isAlive = true)
    (hdead : (ds a wk).playerIsAlive = some false)
    (fuel : Nat) (hfuel : n < fuel) :
    move ds fuel w
        = MoveOutcome.returned GWStatus.GWSTATUS_PLAYER_DIED (ds a wk).decLives
            (log ++ [(i, a)])
      ∧ (ds a wk).decLives.lives = (ds a wk).lives - 1
      ∧ ((∀ b u, (ds b u).lives = u.lives) → (ds a wk).decLives.lives = w.lives - 1)
      ∧ (ds a wk).decLives.actors = (ds a wk).actors
      ∧ (∀ v ∈ log ++ [(i, a)], v.1 ≤ i) := by
  obtain ⟨m, rfl⟩ : ∃ m, fuel = n + (m + 1) := ⟨fuel - n - 1, by omega⟩
  have hpass : movePass ds (n + (m + 1)) 0 w []
      = PassOutcome.playerDied (ds a wk).decLives (log ++ [(i, a)]) := by
    rw [movePass_add ds (m + 1) n 0 w [] i wk log hrun]
    exact movePass_step_died ds m i wk log a hget ha hdead
  refine ⟨?_, rfl, ?_, rfl, ?_⟩
  · simp only [move, hpass]
  · intro hlives
    have h1 := (movePass_lives ds hlives n 0 w []).1 i wk log hrun
    simp [decLives, hlives, h1]
  · intro v hv
    rcases List.mem_append.mp hv with hv | hv
    · exact Nat.le_of_lt (movePass_log_lt ds n 0 w [] (by simp) i wk log hrun v hv)
    · simp only [List.mem_singleton] at hv
      subst hv
      exact Nat.le_refl _

/-- Witness of C2: Floor, Player, Bonfire in the cell of the Player, Koopa;
the hook of the Bonfire, third in the list, kills the Player, and the tick
takes the lives counter from 3 to 2. -/
theorem move_returns_player_died_witness :
    (move Sample.bonfireBurns 3 Sample.bonfireWorld
        = MoveOutcome.returned GWStatus.GWSTATUS_PLAYER_DIED
            (Sample.bonfireBurns (newBonfire Sample.ini 2 5 5) Sample.bonfireWorld).decLives
            ([(0, newFloor Sample.ini 0 5 4), (1, newPlayer Sample.ini 1 5 5)]
              ++ [(2, newBonfire Sample.ini 2 5 5)])
      ∧ (Sample.bonfireBurns (newBonfire Sample.ini 2 5 5) Sample.bonfireWorld).decLives.lives
          = (Sample.bonfireBurns (newBonfire Sample.ini 2 5 5) Sample.bonfireWorld).lives - 1
      ∧ ((∀ b u, (Sample.bonfireBurns b u).lives = u.lives) →
          (Sample.bonfireBurns (newBonfire Sample.ini 2 5 5)
            Sample.bonfireWorld).decLives.lives = Sample.bonfireWorld.lives - 1)
      ∧ (Sample.bonfireBurns (newBonfire Sample.ini 2 5 5) Sample.bonfireWorld).decLives.actors
          = (Sample.bonfireBurns (newBonfire Sample.ini 2 5 5) Sample.bonfireWorld).actors
      ∧ (∀ v ∈ [(0, newFloor Sample.ini 0 5 4), (1, newPlayer Sample.ini 1 5 5)]
              ++ [(2, newBonfire Sample.ini 2 5 5)], v.1 ≤ 2))
      ∧ Sample.bonfireWorld.lives = 3
      ∧ (move Sample.bonfireBurns 3 Sample.bonfireWorld).world.map StudentWorld.lives
          = some 2 :=
  ⟨move_returns_player_died Sample.bonfireBurns Sample.bonfireWorld
      2 2 Sample.bonfireWorld [(0, newFloor Sample.ini 0 5 4), (1, newPlayer Sample.ini 1 5 5)]
      (newBonfire Sample.ini 2 5 5) (by decide) (by decide) (by decide) (by decide) 3
      (by decide),
    by decide, by decide⟩

/-! ## `move()`: dead actors after a tick, and the lives counter -/

/-- What `move()` returns, read off the loop. -/
theorem move_returned_cases (ds : BaseClass → StudentWorld → StudentWorld) (fuel : Nat)
    (w : StudentWorld) (st : GWStatus) (w1 : StudentWorld) (log : List Visit)
    (h : move ds fuel w = MoveOutcome.returned st w1 log) :
    (st = GWStatus.GWSTATUS_PLAYER_DIED
        ∧ movePass ds fuel 0 w [] = PassOutcome.playerDied w1 log)
    ∨ (∃ wk, movePass ds fuel 0 w [] = PassOutcome.finished wk log
        ∧ moveAfterPass wk = some (st, w1)) := by
  unfold move at h
  cases hp : movePass ds fuel 0 w [] with
  | playerDied wk logk =>
    rw [hp] at h
    simp only at h
    injection h with h1 h2 h3
    subst h1; subst h2; subst h3
    exact Or.inl ⟨rfl, rfl⟩
  | finished wk logk =>
    rw [hp] at h
    simp only at h
    cases ha : moveAfterPass wk with
    | none => rw [ha] at h; cases h
    | some r =>
      obtain ⟨st2, w2⟩ := r
      rw [ha] at h
      simp only at h
      injection h with h1 h2 h3
      subst h1; subst h2; subst h3
      exact Or.inr ⟨wk, rfl, ha⟩
  | undefined => rw [hp] at h; cases h
  | running j wk logk => rw [hp] at h; cases h

/-- C4, as stated, fails on the early return: with the Player in the cell of a
Bonfire, `move()` returns `GWSTATUS_PLAYER_DIED` from inside the loop and the
Player, second in the list, is still there with `m_alive == false`. -/
theorem move_player_died_keeps_dead_player :
    (move Sample.bonfireBurns 10 Sample.bonfireWorld).status
        = some GWStatus.GWSTATUS_PLAYER_DIED
      ∧ (move Sample.bonfireBurns 10 Sample.bonfireWorld).world.map StudentWorld.actors
        = some [newFloor Sample.ini 0 5 4, (newPlayer Sample.ini 1 5 5).setDead,
            newBonfire Sample.ini 2 5 5, newKoopa Sample.ini 3 6 5]
      ∧ (newPlayer Sample.ini 1 5 5).setDead.m_alive = false := by
  decide

/-- C4 (amended): when `move()` returns a status other than
`GWSTATUS_PLAYER_DIED` (that is, `GWSTATUS_CONTINUE_GAME` or
`GWSTATUS_FINISHED_LEVEL`), no actor of the list it leaves has
`m_alive == false`; when it returns `GWSTATUS_PLAYER_DIED`, it has returned from
inside the loop without reaping, and the dead Player is still in the list. -/
theorem move_no_dead_actor_unless_player_died
    (ds : BaseClass → StudentWorld → StudentWorld) (fuel : Nat) (w : StudentWorld)
    (st : GWStatus) (w1 : StudentWorld) (log : List Visit)
    (h : move ds fuel w = MoveOutcome.returned st w1 log) :
    (st ≠ GWStatus.GWSTATUS_PLAYER_DIED → ∀ a ∈ w1.actors, a.m_alive = true)
      ∧ (st = GWStatus.GWSTATUS_PLAYER_DIED →
          w1.playerIsAlive = some false ∧ ∃ a ∈ w1.actors, a.m_alive = false) := by
  rcases move_returned_cases ds fuel w st w1 log h with ⟨hst, hp⟩ | ⟨wk, _, ha⟩
  · refine ⟨fun hne => absurd hst hne, fun _ => ?_⟩
    have hd := movePass_playerDied ds fuel 0 w [] w1 log hp
    exact ⟨hd, exists_dead_of_playerIsAlive_false w1 hd⟩
  · obtain ⟨hst, hact, _, _⟩ := moveAfterPass_some wk st w1 ha
    refine ⟨fun _ a hmem => ?_, fun hd => ?_⟩
    · rw [hact] at hmem
      exact (List.mem_filter.mp hmem).2
    · rw [hst] at hd; cases hd

/-- Witness of C4 (amended): a tick in which every hook is a no-op returns
`GWSTATUS_CONTINUE_GAME`. -/
theorem move_no_dead_actor_unless_player_died_witness :
    (GWStatus.GWSTATUS_CONTINUE_GAME ≠ GWStatus.GWSTATUS_PLAYER_DIED →
        ∀ a ∈ ({ Sample.bonfireWorld with
            gameStatText := "Score: 0 Lives: 3 Burps: 0" } : StudentWorld).actors,
          a.m_alive = true)
      ∧ (GWStatus.GWSTATUS_CONTINUE_GAME = GWStatus.GWSTATUS_PLAYER_DIED →
          ({ Sample.bonfireWorld with
            gameStatText := "Score: 0 Lives: 3 Burps: 0" } : StudentWorld).playerIsAlive
              = some false
          ∧ ∃ a ∈ ({ Sample.bonfireWorld with
              gameStatText := "Score: 0 Lives: 3 Burps: 0" } : StudentWorld).actors,
            a.m_alive = false) :=
  move_no_dead_actor_unless_player_died Sample.idle 5 Sample.bonfireWorld
    GWStatus.GWSTATUS_CONTINUE_GAME
    { Sample.bonfireWorld with gameStatText := "Score: 0 Lives: 3 Burps: 0" }
    [(0, newFloor Sample.ini 0 5 4), (1, newPlayer Sample.ini 1 5 5),
      (2, newBonfire Sample.ini 2 5 5), (3, newKoopa Sample.ini 3 6 5)]
    (by decide)

/-- C6: let no hook change the lives counter.  Across one call of `move()` the
lives counter never increases: it is unchanged when `move()` returns
`GWSTATUS_CONTINUE_GAME` and exactly one less than before when `move()` returns
`GWSTATUS_PLAYER_DIED` or `GWSTATUS_FINISHED_LEVEL`; it is never decremented
twice in one tick. -/
theorem move_lives_counter (ds : BaseClass → StudentWorld → StudentWorld)
    (hlives : ∀ b u, (ds b u).lives = u.lives)
    (fuel : Nat) (w : StudentWorld) (st : GWStatus) (w1 : StudentWorld) (log : List Visit)
    (h : move ds fuel w = MoveOutcome.returned st w1 log) :
    w1.lives ≤ w.lives
      ∧ (st = GWStatus.GWSTATUS_CONTINUE_GAME → w1.lives = w.lives)
      ∧ (st = GWStatus.GWSTATUS_PLAYER_DIED ∨ st = GWStatus.GWSTATUS_FINISHED_LEVEL →
          w1.lives = w.lives - 1) := by
  rcases move_returned_cases ds fuel w st w1 log h with ⟨hst, hp⟩ | ⟨wk, hp, ha⟩
  · have hl := (movePass_lives ds hlives fuel 0 w []).2.2 w1 log hp
    refine ⟨by omega, fun hc => ?_, fun _ => hl⟩
    rw [hst] at hc; cases hc
  · have hl := (movePass_lives ds hlives fuel 0 w []).2.1 wk log hp
    obtain ⟨hst, _, hl2, _⟩ := moveAfterPass_some wk st w1 ha
    have hl3 : w1.lives = w.lives := by rw [hl2, hl]
    refine ⟨by omega, fun _ => hl3, fun hd => ?_⟩
    rw [hst] at hd
    rcases hd with hd | hd <;> cases hd

/-- Witness of C6: the tick in which the Bonfire kills the Player takes one
life. -/
theorem move_lives_counter_witness :
    (Sample.bonfireBurns (newBonfire Sample.ini 2 5 5) Sample.bonfireWorld).decLives.lives
        ≤ Sample.bonfireWorld.lives
      ∧ (GWStatus.GWSTATUS_PLAYER_DIED = GWStatus.GWSTATUS_CONTINUE_GAME →
          (Sample.bonfireBurns (newBonfire Sample.ini 2 5 5)
            Sample.bonfireWorld).decLives.lives = Sample.bonfireWorld.lives)
      ∧ (GWStatus.GWSTATUS_PLAYER_DIED = GWStatus.GWSTATUS_PLAYER_DIED
            ∨ GWStatus.GWSTATUS_PLAYER_DIED = GWStatus.GWSTATUS_FINISHED_LEVEL →
          (Sample.bonfireBurns (newBonfire Sample.ini 2 5 5)
            Sample.bonfireWorld).decLives.lives = Sample.bonfireWorld.lives - 1) :=
  move_lives_counter Sample.bonfireBurns Sample.bonfireBurns_lives 10 Sample.bonfireWorld
    GWStatus.GWSTATUS_PLAYER_DIED
    (Sample.bonfireBurns (newBonfire Sample.ini 2 5 5) Sample.bonfireWorld).decLives
    [(0, newFloor Sample.ini 0 5 4), (1, newPlayer Sample.ini 1 5 5),
      (2, newBonfire Sample.ini 2 5 5)]
    (by decide)

/-- When no hook lengthens the actor list, the loop of `move()` ends within
`actors.size() + 1` iterations: the call returns or runs into undefined
behaviour. -/
theorem movePass_not_running (ds : BaseClass → StudentWorld → StudentWorld)
    (hlen : ∀ b u, (ds b u).actors.length ≤ u.actors.length) :
    ∀ (n i : Nat) (w : StudentWorld) (log : List Visit), w.actors.length - i < n →
      ∀ j wk logk, movePass ds n i w log ≠ PassOutcome.running j wk logk := by
  intro n
  induction n with
  | zero => intro i w log h; omega
  | succ n ih =>
    intro i w log h j wk logk hrun
    rcases movePass_succ_cases ds n i w log with
      ⟨_, h1⟩ | ⟨_, h1⟩ | ⟨a, hg, _, h1⟩ | ⟨a, _, _, _, h1⟩ | ⟨a, _, _, _, h1⟩
        | ⟨a, hg, _, _, _, h1⟩ | ⟨a, _, _, _, _, h1⟩
    · rw [h1] at hrun; cases hrun
    · rw [h1] at hrun; cases hrun
    · rw [h1] at hrun
      have hi : i < w.actors.length := (List.getElem?_eq_some_iff.mp hg).1
      exact ih (i + 1) w log (by omega) j wk logk hrun
    · rw [h1] at hrun; cases hrun
    · rw [h1] at hrun; cases hrun
    · rw [h1] at hrun
      have hi : i < w.actors.length := (List.getElem?_eq_some_iff.mp hg).1
      have hl := hlen a w
      exact ih (i + 1) (ds a w) (log ++ [(i, a)]) (by omega) j wk logk hrun
    · rw [h1] at hrun; cases hrun

/-! ## `init()`: the actors of a level -/


/-- The two loops of `init()` visit the cells in scan order. -/
theorem initGrid_eq_initCells (ini : InitialMembers) (VIEW_WIDTH VIEW_HEIGHT : Nat)
    (lev : Level) (w : StudentWorld) :
    initGrid ini VIEW_WIDTH VIEW_HEIGHT lev w
      = initCells ini lev (scanCells VIEW_WIDTH VIEW_HEIGHT) w := by
  unfold initGrid initCells scanCells
  generalize List.range VIEW_WIDTH = xs
  induction xs generalizing w with
  | nil => rfl
  | cons x xs ih =>
    rw [List.foldl_cons, List.flatMap_cons, List.foldl_append, ih]
    congr 1
    unfold initColumn
    rw [List.foldl_map]

theorem push_back_actors (w : StudentWorld) (a : BaseClass) :
    (w.push_back a).actors = w.actors ++ [a] := by
  unfold push_back
  split <;> rfl

theorem push_back_nextAddr (w : StudentWorld) (a : BaseClass) :
    (w.push_back a).nextAddr = w.nextAddr := by
  unfold push_back
  split <;> rfl

theorem push_back_player (w : StudentWorld) (a : BaseClass) :
    (w.push_back a).player = w.player := by
  unfold push_back
  split <;> rfl

/-- One cell of `init()`: the actor of the cell, if any, is pushed to the back
with the next free address, and it becomes `player` when the tag is `player`. -/
theorem initCell_eq (ini : InitialMembers) (lev : Level) (x y : Int) (w : StudentWorld) :
    initCell ini lev x y w =
      match initCellActor ini (lev.getContentsOf x y) w.nextAddr x y with
      | none => w
      | some a =>
        push_back
          { w with
            player := if lev.getContentsOf x y = MazeEntry.player then some w.nextAddr
              else w.player
            nextAddr := w.nextAddr + 1 } a := by
  unfold initCell
  cases lev.getContentsOf x y <;> rfl

theorem initCell_actors (ini : InitialMembers) (lev : Level) (x y : Int) (w : StudentWorld) :
    (initCell ini lev x y w).actors
      = w.actors ++ (initCellActor ini (lev.getContentsOf x y) w.nextAddr x y).toList := by
  rw [initCell_eq]
  cases initCellActor ini (lev.getContentsOf x y) w.nextAddr x y <;>
    simp [push_back_actors]

theorem initCell_nextAddr (ini : InitialMembers) (lev : Level) (x y : Int)
    (w : StudentWorld) :
    (initCell ini lev x y w).nextAddr
      = w.nextAddr
        + (initCellActor ini (lev.getContentsOf x y) w.nextAddr x y).toList.length := by
  rw [initCell_eq]
  cases initCellActor ini (lev.getContentsOf x y) w.nextAddr x y <;>
    simp [push_back_nextAddr]

theorem initCell_player (ini : InitialMembers) (lev : Level) (x y : Int) (w : StudentWorld) :
    (initCell ini lev x y w).player
      = if lev.getContentsOf x y = MazeEntry.player then some w.nextAddr else w.player := by
  rw [initCell_eq]
  cases h : lev.getContentsOf x y <;> simp [initCellActor, push_back_player]

/-- The actor of a cell has the variant of the table of the spec and stands in
the cell. -/
theorem initCellActor_variant (ini : InitialMembers) (item : MazeEntry) (p : Nat) (x y : Int) :
    (initCellActor ini item p x y).map (fun a => (a.x, a.y, a.kind.variant))
      = (specSpawns item).map (fun v => (x, y, v)) := by
  cases item <;> rfl

/-- The actor of a cell has the address handed out, is alive, and is a Player
exactly for the tag `player`; a Fireball faces and moves right. -/
theorem initCellActor_some (ini : InitialMembers) (item : MazeEntry) (p : Nat) (x y : Int)
    (a : BaseClass) (h : initCellActor ini item p x y = some a) :
    a.addr = p ∧ a.m_alive = true ∧ a.x = x ∧ a.y = y
      ∧ (a.kind.variant = Variant.Player ↔ item = MazeEntry.player)
      ∧ (∀ d life, a.kind = ActorKind.Fireball d life →
          d = Direction.right ∧ a.dir = Direction.right) := by
  cases item <;> simp only [initCellActor] at h <;> cases h <;>
    simp [newPlayer, newFloor, newFireball, newKoopa, newBonfire, newExtraLifeGoodie,
      newGarlicGoodie, newLadder, newKong, newBaseClass, ActorKind.variant]

theorem initCells_nil (ini : InitialMembers) (lev : Level) (w : StudentWorld) :
    initCells ini lev [] w = w := rfl

theorem initCells_cons (ini : InitialMembers) (lev : Level) (c : Int × Int)
    (cells : List (Int × Int)) (w : StudentWorld) :
    initCells ini lev (c :: cells) w = initCells ini lev cells (initCell ini lev c.1 c.2 w) :=
  rfl

/-- The actors after the loops of `init()`, by variant and position: those
before, then for every cell in the order visited what the table of the spec
names. -/
theorem initCells_actors_map (ini : InitialMembers) (lev : Level) (cells : List (Int × Int)) :
    ∀ w : StudentWorld,
      (initCells ini lev cells w).actors.map (fun a => (a.x, a.y, a.kind.variant))
        = w.actors.map (fun a => (a.x, a.y, a.kind.variant))
          ++ cells.filterMap
              (fun c => (specSpawns (lev.getContentsOf c.1 c.2)).map (fun v => (c.1, c.2, v))) := by
  induction cells with
  | nil => intro w; simp [initCells_nil]
  | cons c cells ih =>
    intro w
    rw [initCells_cons, ih, initCell_actors, List.map_append, List.append_assoc]
    congr 1
    have hv := initCellActor_variant ini (lev.getContentsOf c.1 c.2) w.nextAddr c.1 c.2
    cases ha : initCellActor ini (lev.getContentsOf c.1 c.2) w.nextAddr c.1 c.2 with
    | none =>
      rw [ha] at hv
      simp only [Option.map_none'] at hv
      simp [List.filterMap_cons, ← hv]
    | some a =>
      rw [ha] at hv
      simp only [Option.map_some'] at hv
      simp [List.filterMap_cons, ← hv]

/-- Every actor after the loops of `init()` was there before or is the actor of
one of the cells. -/
theorem initCells_mem (ini : InitialMembers) (lev : Level) (cells : List (Int × Int)) :
    ∀ (w : StudentWorld) (a : BaseClass), a ∈ (initCells ini lev cells w).actors →
      a ∈ w.actors ∨ ∃ c ∈ cells, ∃ p,
        initCellActor ini (lev.getContentsOf c.1 c.2) p c.1 c.2 = some a := by
  induction cells with
  | nil => intro w a h; exact Or.inl h
  | cons c cells ih =>
    intro w a h
    rw [initCells_cons] at h
    rcases ih _ a h with h1 | ⟨c2, hc2, p, hp⟩
    · rw [initCell_actors] at h1
      rcases List.mem_append.mp h1 with h2 | h2
      · exact Or.inl h2
      · right
        refine ⟨c, List.mem_cons_self _ _, w.nextAddr, ?_⟩
        simpa [Option.mem_toList] using h2
    · exact Or.inr ⟨c2, List.mem_cons_of_mem _ hc2, p, hp⟩


theorem filterMap_pair_length {β : Type} (g : Int × Int → Option β)
    (cells : List (Int × Int)) :
    (cells.filterMap (fun c => (g c).map (fun v => (c.1, c.2, v)))).length
      = (cells.filter (fun c => (g c).isSome)).length := by
  induction cells with
  | nil => rfl
  | cons c cells ih =>
    cases h : g c <;> simp [List.filterMap_cons, List.filter_cons, h, ih]

theorem filterMap_pair_cells {β : Type} (g : Int × Int → Option β)
    (cells : List (Int × Int)) :
    (cells.filterMap (fun c => (g c).map (fun v => (c.1, c.2, v)))).map
        (fun t => (t.1, t.2.1))
      = cells.filter (fun c => (g c).isSome) := by
  induction cells with
  | nil => rfl
  | cons c cells ih =>
    cases h : g c <;> simp [List.filterMap_cons, List.filter_cons, h, ih]

/-- The actors `init()` leaves on a world fresh from `createStudentWorld`, by
position and variant. -/
theorem init_actors_map (ini : InitialMembers) (VIEW_WIDTH VIEW_HEIGHT : Nat) (lev : Level)
    (lives score : Int) (nextAddr : Nat) (hload : lev.loadLevel = LoadResult.load_success) :
    (init ini VIEW_WIDTH VIEW_HEIGHT lev
        (createStudentWorld lives score nextAddr)).2.actors.map
        (fun a => (a.x, a.y, a.kind.variant))
      = specActors VIEW_WIDTH VIEW_HEIGHT lev := by
  simp only [init, hload, ne_eq, not_true_eq_false, if_false]
  rw [initGrid_eq_initCells, initCells_actors_map]
  simp [createStudentWorld, specActors]

/-- C11: for a level that loads, `init()` on a fresh world returns
`GWSTATUS_CONTINUE_GAME` and leaves an actor list that, read by position and
variant, is the list of the cells in scan order (`x` ascending, then `y`
ascending) whose tag is one of the ten spawning tags, each with the variant the
tag names: one actor for each such cell, at the cell, none for any other tag.
Every Fireball in it faces and moves right, and the length of the list is the
number of such cells. -/
theorem init_actors_of_level (ini : InitialMembers) (VIEW_WIDTH VIEW_HEIGHT : Nat)
    (lev : Level) (lives score : Int) (nextAddr : Nat)
    (hload : lev.loadLevel = LoadResult.load_success) :
    (init ini VIEW_WIDTH VIEW_HEIGHT lev (createStudentWorld lives score nextAddr)).1
        = GWStatus.GWSTATUS_CONTINUE_GAME
      ∧ (init ini VIEW_WIDTH VIEW_HEIGHT lev
          (createStudentWorld lives score nextAddr)).2.actors.map
          (fun a => (a.x, a.y, a.kind.variant))
        = specActors VIEW_WIDTH VIEW_HEIGHT lev
      ∧ (∀ a ∈ (init ini VIEW_WIDTH VIEW_HEIGHT lev
            (createStudentWorld lives score nextAddr)).2.actors,
          ∀ d life, a.kind = ActorKind.Fireball d life →
            d = Direction.right ∧ a.dir = Direction.right)
      ∧ (init ini VIEW_WIDTH VIEW_HEIGHT lev
          (createStudentWorld lives score nextAddr)).2.actors.length
        = ((scanCells VIEW_WIDTH VIEW_HEIGHT).filter
            (fun c => (specSpawns (lev.getContentsOf c.1 c.2)).isSome)).length := by
  have hmap := init_actors_map ini VIEW_WIDTH VIEW_HEIGHT lev lives score nextAddr hload
  refine ⟨by simp [init, hload], hmap, ?_, ?_⟩
  · intro a ha d life hk
    simp only [init, hload, ne_eq, not_true_eq_false, if_false] at ha
    rw [initGrid_eq_initCells] at ha
    rcases initCells_mem ini lev _ _ a ha with h | ⟨c, _, p, hp⟩
    · simp [createStudentWorld] at h
    · exact (initCellActor_some ini _ p c.1 c.2 a hp).2.2.2.2.2 d life hk
  · have hlen := congrArg List.length hmap
    rw [List.length_map] at hlen
    rw [hlen, specActors]
    exact filterMap_pair_length (fun c => specSpawns (lev.getContentsOf c.1 c.2)) _

/-- Witness of C11: a level of 3 columns and 2 rows with five spawning cells. -/
theorem init_actors_of_level_witness :
    (init Sample.ini 3 2 Sample.level (createStudentWorld 3 0 100)).1
        = GWStatus.GWSTATUS_CONTINUE_GAME
      ∧ (init Sample.ini 3 2 Sample.level (createStudentWorld 3 0 100)).2.actors.map
          (fun a => (a.x, a.y, a.kind.variant))
        = specActors 3 2 Sample.level
      ∧ (∀ a ∈ (init Sample.ini 3 2 Sample.level (createStudentWorld 3 0 100)).2.actors,
          ∀ d life, a.kind = ActorKind.Fireball d life →
            d = Direction.right ∧ a.dir = Direction.right)
      ∧ (init Sample.ini 3 2 Sample.level (createStudentWorld 3 0 100)).2.actors.length
        = ((scanCells 3 2).filter
            (fun c => (specSpawns (Sample.level.getContentsOf c.1 c.2)).isSome)).length :=
  init_actors_of_level Sample.ini 3 2 Sample.level 3 0 100 rfl

/-- C12, evaluated on a level with a `left_kong` cell at (1,0) and a
`right_kong` cell at (1,1): whatever the constructors do, `init()` builds the two
Kongs with the same call `new Kong(x, y, this)`, so both face the same way and
it is not the case that the first faces left and the second faces right. -/
theorem init_kongs_face_alike (ini : InitialMembers) :
    Sample.level.getContentsOf 1 0 = MazeEntry.left_kong
      ∧ Sample.level.getContentsOf 1 1 = MazeEntry.right_kong
      ∧ (init ini 3 2 Sample.level (createStudentWorld 3 0 0)).2.actors
        = [newFloor ini 0 0 0, newPlayer ini 1 0 1, newKong ini 2 1 0, newKong ini 3 1 1,
            newFireball ini 4 2 0 Direction.right]
      ∧ (newKong ini 2 1 0).dir = (newKong ini 3 1 1).dir
      ∧ ¬ ((newKong ini 2 1 0).dir = Direction.left
          ∧ (newKong ini 3 1 1).dir = Direction.right) := by
  refine ⟨by decide, by decide, rfl, rfl, ?_⟩
  rintro ⟨h1, h2⟩
  have h3 : (newKong ini 2 1 0).dir = (newKong ini 3 1 1).dir := rfl
  rw [h1, h2] at h3
  cases h3

/-! ## `init()`: one actor per cell, one Player -/


theorem scanCells_nodup (VIEW_WIDTH VIEW_HEIGHT : Nat) :
    (scanCells VIEW_WIDTH VIEW_HEIGHT).Nodup := by
  unfold scanCells
  rw [List.nodup_flatMap]
  constructor
  · intro x _
    refine List.Nodup.map ?_ (List.nodup_range _)
    intro y1 y2 h
    simpa using h
  · refine List.Pairwise.imp_of_mem ?_ (List.nodup_range VIEW_WIDTH)
    intro x1 x2 _ _ hne
    simp only [Function.onFun]
    intro c h1 h2
    simp only [List.mem_map, List.mem_range] at h1 h2
    obtain ⟨y1, _, rfl⟩ := h1
    obtain ⟨y2, _, h⟩ := h2
    simp only [Prod.mk.injEq, Nat.cast_inj] at h
    exact hne h.1.symm

/-- The cells of the actors `init()` leaves on a fresh world are the spawning
cells of the grid, in scan order. -/
theorem init_actor_cells (ini : InitialMembers) (VIEW_WIDTH VIEW_HEIGHT : Nat) (lev : Level)
    (lives score : Int) (nextAddr : Nat) (hload : lev.loadLevel = LoadResult.load_success) :
    (init ini VIEW_WIDTH VIEW_HEIGHT lev
        (createStudentWorld lives score nextAddr)).2.actors.map (fun a => (a.x, a.y))
      = (scanCells VIEW_WIDTH VIEW_HEIGHT).filter
          (fun c => (specSpawns (lev.getContentsOf c.1 c.2)).isSome) := by
  have hmap := init_actors_map ini VIEW_WIDTH VIEW_HEIGHT lev lives score nextAddr hload
  have h2 := congrArg (List.map (fun t : Int × Int × Variant => (t.1, t.2.1))) hmap
  rw [List.map_map] at h2
  rw [specActors, filterMap_pair_cells] at h2
  exact h2

/-- C17: after `init()` on a fresh world no two actors of the list stand in the
same cell (whether the level loaded or not); in particular no two
non-walkable actors do. -/
theorem init_no_two_actors_share_cell (ini : InitialMembers) (VIEW_WIDTH VIEW_HEIGHT : Nat)
    (lev : Level) (lives score : Int) (nextAddr : Nat) :
    ((init ini VIEW_WIDTH VIEW_HEIGHT lev
        (createStudentWorld lives score nextAddr)).2.actors.map (fun a => (a.x, a.y))).Nodup
      ∧ (init ini VIEW_WIDTH VIEW_HEIGHT lev
          (createStudentWorld lives score nextAddr)).2.actors.Pairwise
          (fun a b => ¬ (a.x = b.x ∧ a.y = b.y))
      ∧ (init ini VIEW_WIDTH VIEW_HEIGHT lev
          (createStudentWorld lives score nextAddr)).2.actors.Pairwise
          (fun a b => a.isWalkable = false → b.isWalkable = false →
            ¬ (a.getX = b.getX ∧ a.getY = b.getY)) := by
  have hnodup : ((init ini VIEW_WIDTH VIEW_HEIGHT lev
      (createStudentWorld lives score nextAddr)).2.actors.map (fun a => (a.x, a.y))).Nodup := by
    by_cases hload : lev.loadLevel = LoadResult.load_success
    · rw [init_actor_cells ini VIEW_WIDTH VIEW_HEIGHT lev lives score nextAddr hload]
      exact (scanCells_nodup VIEW_WIDTH VIEW_HEIGHT).filter _
    · simp [init, hload, createStudentWorld]
  have hpair : (init ini VIEW_WIDTH VIEW_HEIGHT lev
      (createStudentWorld lives score nextAddr)).2.actors.Pairwise
      (fun a b => ¬ (a.x = b.x ∧ a.y = b.y)) := by
    have h := hnodup
    unfold List.Nodup at h
    rw [List.pairwise_map] at h
    refine h.imp ?_
    intro a b hne hab
    exact hne (Prod.ext hab.1 hab.2)
  refine ⟨hnodup, hpair, hpair.imp ?_⟩
  intro a b hne _ _ hab
  exact hne hab


theorem initCell_wellAllocated (ini : InitialMembers) (lev : Level) (x y : Int)
    (w : StudentWorld) (h : w.WellAllocated) : (initCell ini lev x y w).WellAllocated := by
  obtain ⟨hlt, hnd⟩ := h
  unfold WellAllocated
  rw [initCell_actors, initCell_nextAddr]
  cases ha : initCellActor ini (lev.getContentsOf x y) w.nextAddr x y with
  | none => simpa using ⟨hlt, hnd⟩
  | some a =>
    have haddr := (initCellActor_some ini _ _ x y a ha).1
    constructor
    · intro b hb
      simp only [Option.toList_some, List.mem_append, List.mem_singleton] at hb
      simp only [Option.toList_some, List.length_singleton]
      rcases hb with hb | hb
      · exact Nat.lt_succ_of_lt (hlt b hb)
      · rw [hb, haddr]; exact Nat.lt_succ_self _
    · simp only [Option.toList_some, List.map_append, List.map_cons, List.map_nil]
      rw [List.nodup_append]
      refine ⟨hnd, List.nodup_singleton _, ?_⟩
      intro p hp1 hp2
      simp only [List.mem_singleton] at hp2
      obtain ⟨b, hb, hbp⟩ := List.mem_map.mp hp1
      have := hlt b hb
      omega

theorem initCell_playerTracked (ini : InitialMembers) (lev : Level) (x y : Int)
    (w : StudentWorld) (h : w.PlayerTracked) : (initCell ini lev x y w).PlayerTracked := by
  unfold PlayerTracked at h ⊢
  rw [initCell_player, initCell_actors]
  cases ha : initCellActor ini (lev.getContentsOf x y) w.nextAddr x y with
  | none =>
    have htag : lev.getContentsOf x y ≠ MazeEntry.player := by
      intro ht
      rw [ht] at ha
      simp [initCellActor] at ha
    simpa [htag] using h
  | some a =>
    obtain ⟨haddr, _, _, _, hpl, _⟩ := initCellActor_some ini _ _ x y a ha
    by_cases htag : lev.getContentsOf x y = MazeEntry.player
    · simp only [htag, if_true]
      exact ⟨a, by simp, haddr, hpl.mpr htag⟩
    · simp only [htag, if_false]
      cases hp : w.player with
      | none =>
        rw [hp] at h
        intro b hb
        simp only [Option.toList_some, List.mem_append, List.mem_singleton] at hb
        rcases hb with hb | hb
        · exact h b hb
        · rw [hb]
          intro hv
          exact htag (hpl.mp hv)
      | some p =>
        rw [hp] at h
        obtain ⟨b, hb, hbp, hbv⟩ := h
        exact ⟨b, List.mem_append_left _ hb, hbp, hbv⟩

theorem initCells_invariants (ini : InitialMembers) (lev : Level) (cells : List (Int × Int)) :
    ∀ w : StudentWorld, w.WellAllocated → w.PlayerTracked →
      (initCells ini lev cells w).WellAllocated ∧ (initCells ini lev cells w).PlayerTracked := by
  induction cells with
  | nil => intro w h1 h2; exact ⟨h1, h2⟩
  | cons c cells ih =>
    intro w h1 h2
    rw [initCells_cons]
    exact ih _ (initCell_wellAllocated ini lev c.1 c.2 w h1)
      (initCell_playerTracked ini lev c.1 c.2 w h2)

theorem createStudentWorld_invariants (lives score : Int) (nextAddr : Nat) :
    (createStudentWorld lives score nextAddr).WellAllocated
      ∧ (createStudentWorld lives score nextAddr).PlayerTracked := by
  constructor
  · exact ⟨by simp [createStudentWorld], by simp [createStudentWorld]⟩
  · simp [PlayerTracked, createStudentWorld]

/-- In a list without two actors of one address, a pointer to an actor of the
list dereferences to that actor. -/
theorem find?_addr_of_nodup (l : List BaseClass) (hnd : (l.map BaseClass.addr).Nodup)
    (a : BaseClass) (ha : a ∈ l) : l.find? (fun b => b.addr == a.addr) = some a := by
  induction l with
  | nil => cases ha
  | cons b rest ih =>
    simp only [List.map_cons, List.nodup_cons] at hnd
    rcases List.mem_cons.mp ha with rfl | ha
    · simp
    · have hne : b.addr ≠ a.addr := by
        intro heq
        exact hnd.1 (heq ▸ List.mem_map_of_mem _ ha)
      have hb : (b.addr == a.addr) = false := by simpa using hne
      rw [List.find?_cons, hb]
      exact ih hnd.2 ha

theorem specSpawns_player_iff (item : MazeEntry) :
    specSpawns item = some Variant.Player ↔ item = MazeEntry.player := by
  cases item <;> simp [specSpawns]

theorem filter_player_length (g : Int × Int → MazeEntry) (cells : List (Int × Int)) :
    ((cells.filterMap (fun c => (specSpawns (g c)).map (fun v => (c.1, c.2, v)))).filter
        (fun t => decide (t.2.2 = Variant.Player))).length
      = (cells.filter (fun c => decide (g c = MazeEntry.player))).length := by
  induction cells with
  | nil => rfl
  | cons c cells ih =>
    cases hs : specSpawns (g c) with
    | none =>
      have hne : g c ≠ MazeEntry.player := by
        intro hp
        rw [(specSpawns_player_iff (g c)).mpr hp] at hs
        cases hs
      simp [List.filterMap_cons, List.filter_cons, hs, hne, ih]
    | some v =>
      by_cases hv : v = Variant.Player
      · subst hv
        have hp := (specSpawns_player_iff (g c)).mp hs
        have hd : decide (g c = MazeEntry.player) = true := by simp [hp]
        simp [List.filterMap_cons, List.filter_cons, hs, hd, ih]
      · have hne : g c ≠ MazeEntry.player := by
          intro hp
          rw [(specSpawns_player_iff (g c)).mpr hp] at hs
          exact hv (Option.some.inj hs).symm
        simp [List.filterMap_cons, List.filter_cons, hs, hne, hv, ih]


/-- C13: for a level that loads and has exactly one cell tagged `player`,
after `init()` on a fresh world the actor list holds exactly one Player, the
member `player` is the address of that Player and dereferences to it, and the
list without that actor holds no Player. -/
theorem init_exactly_one_player (ini : InitialMembers) (VIEW_WIDTH VIEW_HEIGHT : Nat)
    (lev : Level) (lives score : Int) (nextAddr : Nat)
    (hload : lev.loadLevel = LoadResult.load_success)
    (hone : ((scanCells VIEW_WIDTH VIEW_HEIGHT).filter
        (fun c => decide (lev.getContentsOf c.1 c.2 = MazeEntry.player))).length = 1) :
    ∃ pl : BaseClass,
      (init ini VIEW_WIDTH VIEW_HEIGHT lev
          (createStudentWorld lives score nextAddr)).2.actors.filter
          (fun a => decide (a.kind.variant = Variant.Player)) = [pl]
        ∧ (init ini VIEW_WIDTH VIEW_HEIGHT lev
            (createStudentWorld lives score nextAddr)).2.player = some pl.addr
        ∧ (init ini VIEW_WIDTH VIEW_HEIGHT lev
            (createStudentWorld lives score nextAddr)).2.deref pl.addr = some pl
        ∧ ∀ a ∈ ((init ini VIEW_WIDTH VIEW_HEIGHT lev
            (createStudentWorld lives score nextAddr)).2.actors.erase pl),
            a.kind.variant ≠ Variant.Player := by
  have hmap := init_actors_map ini VIEW_WIDTH VIEW_HEIGHT lev lives score nextAddr hload
  have hinv : (init ini VIEW_WIDTH VIEW_HEIGHT lev
        (createStudentWorld lives score nextAddr)).2.WellAllocated
      ∧ (init ini VIEW_WIDTH VIEW_HEIGHT lev
        (createStudentWorld lives score nextAddr)).2.PlayerTracked := by
    simp only [init, hload, ne_eq, not_true_eq_false, if_false]
    rw [initGrid_eq_initCells]
    exact initCells_invariants ini lev _ _
      (createStudentWorld_invariants lives score nextAddr).1
      (createStudentWorld_invariants lives score nextAddr).2
  generalize (init ini VIEW_WIDTH VIEW_HEIGHT lev
    (createStudentWorld lives score nextAddr)).2 = w1 at hmap hinv ⊢
  obtain ⟨⟨_, hnd⟩, htracked⟩ := hinv
  have hlen : (w1.actors.filter (fun a => decide (a.kind.variant = Variant.Player))).length
      = 1 := by
    have h1 := congrArg
      (fun l : List (Int × Int × Variant) =>
        (l.filter (fun t => decide (t.2.2 = Variant.Player))).length) hmap
    simp only [List.filter_map, List.length_map] at h1
    rw [specActors, filter_player_length (fun c => lev.getContentsOf c.1 c.2)] at h1
    rw [hone] at h1
    exact h1
  obtain ⟨pl, hpl⟩ := List.length_eq_one.mp hlen
  have hplmem : pl ∈ w1.actors.filter (fun a => decide (a.kind.variant = Variant.Player)) := by
    rw [hpl]; exact List.mem_singleton_self _
  have hplin : pl ∈ w1.actors := (List.mem_filter.mp hplmem).1
  have honly : ∀ a ∈ w1.actors, a.kind.variant = Variant.Player → a = pl := by
    intro a ha hv
    have : a ∈ w1.actors.filter (fun a => decide (a.kind.variant = Variant.Player)) :=
      List.mem_filter.mpr ⟨ha, by simpa using hv⟩
    rw [hpl] at this
    exact List.mem_singleton.mp this
  refine ⟨pl, hpl, ?_, ?_, ?_⟩
  · unfold PlayerTracked at htracked
    cases hp : w1.player with
    | none =>
      rw [hp] at htracked
      have hv : pl.kind.variant = Variant.Player := by
        simpa using (List.mem_filter.mp hplmem).2
      exact absurd hv (htracked pl hplin)
    | some p =>
      rw [hp] at htracked
      obtain ⟨a, ha, hap, hav⟩ := htracked
      rw [← hap, honly a ha hav]
  · exact find?_addr_of_nodup w1.actors hnd pl hplin
  · intro a ha hv
    have hnodup : w1.actors.Nodup := List.Nodup.of_map _ hnd
    have hmem := (List.Nodup.mem_erase_iff hnodup).mp ha
    exact hmem.1 (honly a hmem.2 hv)

/-- Witness of C13: the level of 3 columns and 2 rows with its one `player`
cell at (0,1). -/
theorem init_exactly_one_player_witness :
    ∃ pl : BaseClass,
      (init Sample.ini 3 2 Sample.level (createStudentWorld 3 0 100)).2.actors.filter
          (fun a => decide (a.kind.variant = Variant.Player)) = [pl]
        ∧ (init Sample.ini 3 2 Sample.level (createStudentWorld 3 0 100)).2.player
          = some pl.addr
        ∧ (init Sample.ini 3 2 Sample.level (createStudentWorld 3 0 100)).2.deref pl.addr
          = some pl
        ∧ ∀ a ∈ ((init Sample.ini 3 2 Sample.level
            (createStudentWorld 3 0 100)).2.actors.erase pl),
            a.kind.variant ≠ Variant.Player :=
  init_exactly_one_player Sample.ini 3 2 Sample.level 3 0 100 rfl (by decide)

/-! ## Spawning a Barrel and reaping it -/


theorem map_setDead_of_fresh (p : Nat) (l : List BaseClass) (h : ∀ a ∈ l, a.addr ≠ p) :
    l.map (fun a => if a.addr = p then a.setDead else a) = l := by
  induction l with
  | nil => rfl
  | cons b rest ih =>
    have hb : b.addr ≠ p := h b (List.mem_cons_self _ _)
    have hrest := ih (fun a ha => h a (List.mem_cons_of_mem _ ha))
    simp only [List.map_cons, hb, if_false, hrest]

/-- C14: let `b` be a Barrel fresh from `new` (its address is that of no actor
of the world).  Pushing `b` with `addActor`, marking it dead with `setDead` and
running `removeDeadActors` leaves the same actor list as `removeDeadActors` on
the world as it was. -/
theorem addActor_setDead_removeDeadActors (w : StudentWorld) (x y : Int) (dir : Direction)
    (hfresh : ∀ a ∈ w.actors, a.addr ≠ w.nextAddr) :
    ((((w.allocate (fun p => newBarrel p x y dir)).2.addActor
          (some (w.allocate (fun p => newBarrel p x y dir)).1)).setDeadAt
        (w.allocate (fun p => newBarrel p x y dir)).1.addr).removeDeadActors).actors
      = w.removeDeadActors.actors := by
  rw [removeDeadActors_actors, removeDeadActors_actors]
  simp only [allocate, addActor, setDeadAt, newBarrel, newBaseClass, push_back_actors,
    List.map_append, List.map_cons, List.map_nil, if_true]
  rw [map_setDead_of_fresh w.nextAddr w.actors hfresh]
  simp [BaseClass.setDead, BaseClass.isAlive]

/-- Witness of C14: a Barrel spawned into the world of the Bonfire. -/
theorem addActor_setDead_removeDeadActors_witness :
    ((((Sample.bonfireWorld.allocate
            (fun p => newBarrel p 7 5 Direction.left)).2.addActor
          (some (Sample.bonfireWorld.allocate
            (fun p => newBarrel p 7 5 Direction.left)).1)).setDeadAt
        (Sample.bonfireWorld.allocate
          (fun p => newBarrel p 7 5 Direction.left)).1.addr).removeDeadActors).actors
      = Sample.bonfireWorld.removeDeadActors.actors :=
  addActor_setDead_removeDeadActors Sample.bonfireWorld 7 5 Direction.left (by decide)

/-! ## Cells outside the playfield -/

/-- C15, as stated, fails: `canMoveTo` has no bounds check.  In a playfield of
20 by 20 cells, with the four actors of the sample world inside it,
`canMoveTo(-1, 5)` and `canMoveTo(20, 20)` return true. -/
theorem canMoveTo_true_outside_playfield :
    (∀ a ∈ Sample.bonfireWorld.actors, 0 ≤ a.x ∧ a.x < 20 ∧ 0 ≤ a.y ∧ a.y < 20)
      ∧ ((-1 : Int) < 0 ∧ Sample.bonfireWorld.canMoveTo (-1) 5 = true)
      ∧ ((20 : Int) ≥ 20 ∧ Sample.bonfireWorld.canMoveTo 20 20 = true) := by
  decide

/-- C15 (amended): for a cell `(x, y)` outside the playfield `canMoveTo(x, y)`
returns false only when a non-walkable actor stands at `(x, y)`; when every
actor of the world stands inside the playfield it returns true, so the
predicate does not refuse an out-of-bounds move. -/
theorem canMoveTo_out_of_bounds (VIEW_WIDTH VIEW_HEIGHT : Nat) (w : StudentWorld)
    (x y : Int)
    (hout : x < 0 ∨ x ≥ (VIEW_WIDTH : Int) ∨ y < 0 ∨ y ≥ (VIEW_HEIGHT : Int)) :
    (w.canMoveTo x y = false ↔
        ∃ a ∈ w.actors, a.getX = x ∧ a.getY = y ∧ a.isWalkable = false)
      ∧ ((∀ a ∈ w.actors, 0 ≤ a.x ∧ a.x < (VIEW_WIDTH : Int)
            ∧ 0 ≤ a.y ∧ a.y < (VIEW_HEIGHT : Int)) →
          w.canMoveTo x y = true) := by
  refine ⟨canMoveToLoop_eq_false x y w.actors, ?_⟩
  intro hin
  cases hc : w.canMoveTo x y with
  | true => rfl
  | false =>
    obtain ⟨a, ha, hx, hy, _⟩ := (canMoveToLoop_eq_false x y w.actors).mp hc
    have hb := hin a ha
    simp only [BaseClass.getX, BaseClass.getY] at hx hy
    omega

/-- Witness of C15 (amended): the cell (-1, 5) of the sample world. -/
theorem canMoveTo_out_of_bounds_witness :
    (Sample.bonfireWorld.canMoveTo (-1) 5 = false ↔
        ∃ a ∈ Sample.bonfireWorld.actors,
          a.getX = -1 ∧ a.getY = 5 ∧ a.isWalkable = false)
      ∧ ((∀ a ∈ Sample.bonfireWorld.actors, 0 ≤ a.x ∧ a.x < ((20 : Nat) : Int)
            ∧ 0 ≤ a.y ∧ a.y < ((20 : Nat) : Int)) →
          Sample.bonfireWorld.canMoveTo (-1) 5 = true) :=
  canMoveTo_out_of_bounds 20 20 Sample.bonfireWorld (-1) 5 (Or.inl (by decide))

/-! ## Actors spawned during the pass -/

/-- C16, evaluated with a Kong whose hook spawns a Barrel with `addActor`.
On the world `init()` builds from a level with the Player and one Kong the
vector is full (two actors, capacity two): the `push_back` of the Barrel
reallocates, the iterator of the loop is invalid, and the tick is undefined
behaviour.  On the world `init()` builds from the level of five actors
(capacity eight) the two Barrels are pushed to indices 5 and 6 without a
reallocation, and the same call of `move()` invokes their hooks. -/
theorem move_visits_spawned_actor :
    (Sample.kongWorld.actors = [newPlayer Sample.ini 0 0 0, newKong Sample.ini 1 1 0]
        ∧ Sample.kongWorld.capacity = 2
        ∧ (Sample.kongThrows (newKong Sample.ini 1 1 0) Sample.kongWorld).actors
          = [newPlayer Sample.ini 0 0 0, newKong Sample.ini 1 1 0,
              newBarrel 2 2 0 Direction.right]
        ∧ (Sample.kongThrows (newKong Sample.ini 1 1 0) Sample.kongWorld).reallocations
          = Sample.kongWorld.reallocations + 1
        ∧ move Sample.kongThrows 4 Sample.kongWorld = MoveOutcome.undefined)
      ∧ (Sample.levelWorld.actors.length = 5
        ∧ Sample.levelWorld.capacity = 8
        ∧ (move Sample.kongThrows 8 Sample.levelWorld).status
          = some GWStatus.GWSTATUS_CONTINUE_GAME
        ∧ (move Sample.kongThrows 8 Sample.levelWorld).visits
          = some [(0, newFloor Sample.ini 0 0 0), (1, newPlayer Sample.ini 1 0 1),
              (2, newKong Sample.ini 2 1 0), (3, newKong Sample.ini 3 1 1),
              (4, newFireball Sample.ini 4 2 0 Direction.right),
              (5, newBarrel 5 2 0 Direction.right),
              (6, newBarrel 6 2 1 Direction.right)]) := by
  decide

/-! ## The order of the hooks in a tick -/


/-- A whole tick in which the hook of the Player destroys the Koopa: the
Koopa, alive at the start of the tick, has no hook invoked and is reaped after
the loop. -/
theorem move_skips_actor_killed_earlier :
    move Sample.playerBurps 5 Sample.bonfireWorld
      = MoveOutcome.returned GWStatus.GWSTATUS_CONTINUE_GAME
          { Sample.bonfireWorld with
            actors := [newFloor Sample.ini 0 5 4, newPlayer Sample.ini 1 5 5,
              newBonfire Sample.ini 2 5 5]
            gameStatText := "Score: 0 Lives: 3 Burps: 0" }
          [(0, newFloor Sample.ini 0 5 4), (1, newPlayer Sample.ini 1 5 5),
            (2, newBonfire Sample.ini 2 5 5)] := by
  decide

/-! ## The check of the Player after the reap -/


/-- The loop of `move()` ends, when it runs to the end of the list, with the
Player alive, provided the Player was alive when the loop began. -/
theorem movePass_finished_playerIsAlive (ds : BaseClass → StudentWorld → StudentWorld) :
    ∀ (n i : Nat) (w : StudentWorld) (log : List Visit),
      w.playerIsAlive = some true →
      ∀ wk logk, movePass ds n i w log = PassOutcome.finished wk logk →
        wk.playerIsAlive = some true := by
  intro n
  induction n with
  | zero =>
    intro i w log _ wk logk h
    simp only [movePass] at h
    cases h
  | succ n ih =>
    intro i w log hw wk logk h
    rcases movePass_succ_cases ds n i w log with
      ⟨_, h1⟩ | ⟨_, h1⟩ | ⟨a, _, _, h1⟩ | ⟨a, _, _, _, h1⟩ | ⟨a, _, _, _, h1⟩
        | ⟨a, _, _, hp, _, h1⟩ | ⟨a, _, _, _, _, h1⟩
    · rw [h1] at h
      injection h with h2 h3
      rw [← h2]
      exact hw
    · rw [h1] at h; cases h
    · rw [h1] at h
      exact ih (i + 1) w log hw wk logk h
    · rw [h1] at h; cases h
    · rw [h1] at h; cases h
    · rw [h1] at h
      exact ih (i + 1) (ds a w) (log ++ [(i, a)]) hp wk logk h
    · rw [h1] at h; cases h

/-- The reap keeps a live Player, and `player` still points to it. -/
theorem removeDeadActors_playerIsAlive (w : StudentWorld)
    (h : w.playerIsAlive = some true) : w.removeDeadActors.playerIsAlive = some true := by
  unfold playerIsAlive at h ⊢
  have hpl : w.removeDeadActors.player = w.player := rfl
  rw [hpl]
  cases hp : w.player with
  | none => rw [hp] at h; cases h
  | some p =>
    rw [hp] at h
    simp only at h ⊢
    unfold deref at h ⊢
    rw [removeDeadActors_actors, List.find?_filter]
    cases hf : w.actors.find? (fun a => a.addr == p) with
    | none => rw [hf] at h; cases h
    | some a =>
      rw [hf] at h
      simp only [Option.map_some', Option.some.injEq] at h
      obtain ⟨ha, l1, l2, hl, hbefore⟩ := List.find?_eq_some.mp hf
      have hfind : w.actors.find?
          (fun a => decide ((fun a => a.isAlive) a = true ∧ (fun a => a.addr == p) a = true))
          = some a := by
        rw [List.find?_eq_some]
        refine ⟨by simpa using ⟨h, by simpa using ha⟩, l1, l2, hl, ?_⟩
        intro b hb
        have := hbefore b hb
        simp only [Bool.not_eq_true', beq_eq_false_iff_ne, ne_eq] at this
        simp [this]
      rw [hfind]
      simp [h]

/-- C19: let `player` be non-null and point to an actor of the list that is
alive at the start of the tick.  Whatever the hooks do and whatever the lives
counter is, a call of `move()` that returns, returns `GWSTATUS_CONTINUE_GAME` or
`GWSTATUS_PLAYER_DIED`, and `GWSTATUS_PLAYER_DIED` only from inside the loop.
When the loop runs to the end of the list the Player is alive there and still
alive, and in the list, after the reap, so the condition
`player && !player->isAlive()` of the second check is false and the branch with
the second `decLives()` is not entered. -/
theorem move_returns_continue_or_player_died
    (ds : BaseClass → StudentWorld → StudentWorld) (w : StudentWorld) (p : Nat)
    (pl : BaseClass) (hnonnull : w.player = some p) (hmem : w.deref p = some pl)
    (halive : pl.isAlive = true) (fuel : Nat) (st : GWStatus) (w1 : StudentWorld)
    (log : List Visit) (h : move ds fuel w = MoveOutcome.returned st w1 log) :
    (st = GWStatus.GWSTATUS_CONTINUE_GAME ∨ st = GWStatus.GWSTATUS_PLAYER_DIED)
      ∧ st ≠ GWStatus.GWSTATUS_FINISHED_LEVEL
      ∧ (st = GWStatus.GWSTATUS_PLAYER_DIED →
          movePass ds fuel 0 w [] = PassOutcome.playerDied w1 log)
      ∧ (∀ wk logk, movePass ds fuel 0 w [] = PassOutcome.finished wk logk →
          wk.playerIsAlive = some true
            ∧ wk.removeDeadActors.playerIsAlive = some true
            ∧ st = GWStatus.GWSTATUS_CONTINUE_GAME
            ∧ w1.lives = wk.lives) := by
  have hw : w.playerIsAlive = some true := by
    simp [playerIsAlive, hnonnull, hmem, halive]
  rcases move_returned_cases ds fuel w st w1 log h with ⟨hst, hp⟩ | ⟨wk, hp, ha⟩
  · refine ⟨Or.inr hst, by rw [hst]; decide, fun _ => hp, ?_⟩
    intro wk logk hfin
    rw [hp] at hfin
    cases hfin
  · obtain ⟨hst, _, hl, _⟩ := moveAfterPass_some wk st w1 ha
    refine ⟨Or.inl hst, by rw [hst]; decide, ?_, ?_⟩
    · intro hd
      rw [hst] at hd
      cases hd
    · intro wk2 logk hfin
      rw [hp] at hfin
      injection hfin with h1 h2
      subst h1
      have hk := movePass_finished_playerIsAlive ds fuel 0 w [] hw wk log hp
      exact ⟨hk, removeDeadActors_playerIsAlive wk hk, hst, hl⟩

/-- Witness of C19: a tick of the world of the Bonfire with idle hooks. -/
theorem move_returns_continue_or_player_died_witness :
    (GWStatus.GWSTATUS_CONTINUE_GAME = GWStatus.GWSTATUS_CONTINUE_GAME
        ∨ GWStatus.GWSTATUS_CONTINUE_GAME = GWStatus.GWSTATUS_PLAYER_DIED)
      ∧ GWStatus.GWSTATUS_CONTINUE_GAME ≠ GWStatus.GWSTATUS_FINISHED_LEVEL
      ∧ (GWStatus.GWSTATUS_CONTINUE_GAME = GWStatus.GWSTATUS_PLAYER_DIED →
          movePass Sample.idle 5 0 Sample.bonfireWorld []
            = PassOutcome.playerDied
                { Sample.bonfireWorld with gameStatText := "Score: 0 Lives: 3 Burps: 0" }
                [(0, newFloor Sample.ini 0 5 4), (1, newPlayer Sample.ini 1 5 5),
                  (2, newBonfire Sample.ini 2 5 5), (3, newKoopa Sample.ini 3 6 5)])
      ∧ (∀ wk logk, movePass Sample.idle 5 0 Sample.bonfireWorld []
            = PassOutcome.finished wk logk →
          wk.playerIsAlive = some true
            ∧ wk.removeDeadActors.playerIsAlive = some true
            ∧ GWStatus.GWSTATUS_CONTINUE_GAME = GWStatus.GWSTATUS_CONTINUE_GAME
            ∧ ({ Sample.bonfireWorld with
                gameStatText := "Score: 0 Lives: 3 Burps: 0" } : StudentWorld).lives
              = wk.lives) :=
  move_returns_continue_or_player_died Sample.idle Sample.bonfireWorld 1
    (newPlayer Sample.ini 1 5 5) (by decide) (by decide) (by decide) 5
    GWStatus.GWSTATUS_CONTINUE_GAME
    { Sample.bonfireWorld with gameStatText := "Score: 0 Lives: 3 Burps: 0" }
    [(0, newFloor Sample.ini 0 5 4), (1, newPlayer Sample.ini 1 5 5),
      (2, newBonfire Sample.ini 2 5 5), (3, newKoopa Sample.ini 3 6 5)]
    (by decide)

/-! ## Walkable cells -/

theorem isWalkable_iff (a : BaseClass) :
    a.isWalkable = true ↔ a.kind = ActorKind.Floor ∨ a.kind = ActorKind.Ladder := by
  cases a with
  | mk addr x y dir alive kind => cases kind <;> simp [BaseClass.isWalkable]

theorem isWalkable_false_of_variant (a : BaseClass)
    (h : a.kind.variant ∈ [Variant.Player, Variant.Koopa, Variant.Fireball, Variant.Bonfire,
      Variant.Kong, Variant.Barrel, Variant.Burp, Variant.ExtraLifeGoodie,
      Variant.GarlicGoodie]) : a.isWalkable = false := by
  cases a with
  | mk addr x y dir alive kind =>
    cases kind <;> simp [BaseClass.isWalkable, ActorKind.variant] at h ⊢

/-- C20: when every actor at `(x, y)` is a Floor or a Ladder, `canMoveTo(x, y)`
is true; so for a cell that holds a Floor and only Floors, `isWallAt(x, y)` and
`canMoveTo(x, y)` are both true; and a cell that holds an actor of any other
variant (Player, Koopa, Fireball, Bonfire, Kong, Barrel, Burp, ExtraLifeGoodie,
GarlicGoodie) has `canMoveTo(x, y)` false. -/
theorem canMoveTo_floor_ladder (w : StudentWorld) (x y : Int) :
    ((∀ a ∈ w.actors, a.getX = x → a.getY = y →
          a.kind = ActorKind.Floor ∨ a.kind = ActorKind.Ladder) →
        w.canMoveTo x y = true)
      ∧ ((∃ a ∈ w.actors, a.getX = x ∧ a.getY = y) →
          (∀ a ∈ w.actors, a.getX = x → a.getY = y → a.kind = ActorKind.Floor) →
          w.isWallAt x y = true ∧ w.canMoveTo x y = true)
      ∧ ((∃ a ∈ w.actors, a.getX = x ∧ a.getY = y
            ∧ a.kind.variant ∈ [Variant.Player, Variant.Koopa, Variant.Fireball,
                Variant.Bonfire, Variant.Kong, Variant.Barrel, Variant.Burp,
                Variant.ExtraLifeGoodie, Variant.GarlicGoodie]) →
          w.canMoveTo x y = false) := by
  have hfirst : (∀ a ∈ w.actors, a.getX = x → a.getY = y →
        a.kind = ActorKind.Floor ∨ a.kind = ActorKind.Ladder) →
      w.canMoveTo x y = true := by
    intro hall
    cases hc : w.canMoveTo x y with
    | true => rfl
    | false =>
      obtain ⟨a, ha, hx, hy, hwalk⟩ := (canMoveToLoop_eq_false x y w.actors).mp hc
      have := (isWalkable_iff a).mpr (hall a ha hx hy)
      rw [hwalk] at this
      cases this
  refine ⟨hfirst, ?_, ?_⟩
  · rintro ⟨a, ha, hx, hy⟩ hall
    constructor
    · rw [isWallAt, isWallAtLoop_eq_isFloorAtLoop]
      exact (isFloorAtLoop_iff x y w.actors).mpr ⟨a, ha, hall a ha hx hy, hx, hy⟩
    · exact hfirst (fun b hb hbx hby => Or.inl (hall b hb hbx hby))
  · rintro ⟨a, ha, hx, hy, hv⟩
    exact (canMoveToLoop_eq_false x y w.actors).mpr
      ⟨a, ha, hx, hy, isWalkable_false_of_variant a hv⟩

/-- Witness of C20: in the world of the Bonfire the cell (5,4) holds only a
Floor, it is a wall and can be moved to; the cell (5,5) holds the Player and a
Bonfire, the cell (6,5) a Koopa, and neither can be moved to. -/
theorem canMoveTo_floor_ladder_witness :
    (Sample.bonfireWorld.isWallAt 5 4 = true ∧ Sample.bonfireWorld.canMoveTo 5 4 = true)
      ∧ Sample.bonfireWorld.canMoveTo 5 5 = false
      ∧ Sample.bonfireWorld.canMoveTo 6 5 = false :=
  ⟨(canMoveTo_floor_ladder Sample.bonfireWorld 5 4).2.1
      ⟨newFloor Sample.ini 0 5 4, by decide, by decide, by decide⟩ (by decide),
    (canMoveTo_floor_ladder Sample.bonfireWorld 5 5).2.2
      ⟨newPlayer Sample.ini 1 5 5, by decide, by decide, by decide, by decide⟩,
    (canMoveTo_floor_ladder Sample.bonfireWorld 6 5).2.2
      ⟨newKoopa Sample.ini 3 6 5, by decide, by decide, by decide, by decide⟩⟩

end StudentWorld

end WonkyKong
